import Mathlib

/-!
PR Size Checker: a shallow embedding of `src/index.js`

The action is one procedure, `run`, that reads its inputs, fetches the pull
request, classifies it by changed lines, reconciles the size labels, optionally
posts an advisory comment and publishes two outputs.

The embedding keeps the control flow of `run` statement by statement.  Every
observable effect (a platform call together with what it returned, a log line,
a failure report, an output) is appended to a list of events, so that claims
about which calls are issued, in which order, and with which arguments are
statements about that list.  The hosted platform is a parameter: a record of
response functions over an arbitrary state.

JavaScript numbers are modelled by `Int` (with `none` for `NaN` where
`parseInt` can produce it); the rounding of integers beyond `2^53` is not
modelled.
-/

namespace PRSize

/-! ## JavaScript and toolkit primitives -/

/-- White space and line terminators, as stripped by `trim` and skipped by `parseInt`. -/
def isJsWhiteSpace (c : Char) : Bool :=
  let n := c.toNat
  n == 9 || n == 10 || n == 11 || n == 12 || n == 13 || n == 32 || n == 160 ||
  n == 5760 || (8192 ≤ n && n ≤ 8202) || n == 8232 || n == 8233 || n == 8239 ||
  n == 8287 || n == 12288 || n == 65279

/-- The characters of a string without leading and trailing white space. -/
def trimChars (cs : List Char) : List Char :=
  ((cs.dropWhile isJsWhiteSpace).reverse.dropWhile isJsWhiteSpace).reverse

/-- String `trim` of JavaScript. -/
def trim (s : String) : String := ⟨trimChars s.data⟩

/-- Value of a character as a digit in a radix up to 36. -/
def digitValue (c : Char) : Option Nat :=
  let n := c.toNat
  if 48 ≤ n ∧ n ≤ 57 then some (n - 48)
  else if 97 ≤ n ∧ n ≤ 122 then some (n - 87)
  else if 65 ≤ n ∧ n ≤ 90 then some (n - 55)
  else none

/-- Whether a character is a digit of the given radix. -/
def isRadixDigit (radix : Nat) (c : Char) : Bool :=
  match digitValue c with
  | some d => decide (d < radix)
  | none => false

/-- Sign and remainder of the input of `parseInt`. -/
def splitSign : List Char → Bool × List Char
  | '-' :: r => (true, r)
  | '+' :: r => (false, r)
  | cs => (false, cs)

/-- Radix chosen by `parseInt` when none is passed, and the digits to read. -/
def splitRadix : List Char → Nat × List Char
  | '0' :: 'x' :: r => (16, r)
  | '0' :: 'X' :: r => (16, r)
  | cs => (10, cs)

/-- The one-argument `parseInt` of JavaScript: `none` stands for `NaN`. -/
def parseInt (s : String) : Option Int :=
  let signed := splitSign (s.data.dropWhile isJsWhiteSpace)
  let based := splitRadix signed.2
  let z := based.2.takeWhile (isRadixDigit based.1)
  if z.isEmpty then none
  else
    let v : Nat := z.foldl (fun acc c => acc * based.1 + (digitValue c).getD 0) 0
    some (if signed.1 then - (v : Int) else (v : Int))

/-- The comparison `x <= y` of JavaScript with `y` possibly `NaN`. -/
def jsLe (x : Int) (y : Option Int) : Bool :=
  match y with
  | some v => decide (x ≤ v)
  | none => false

/-- A number as a template literal prints it. -/
def numToString : Option Int → String
  | some v => toString v
  | none => "NaN"

/-- Substring test on character lists. -/
def includesChars : List Char → List Char → Bool
  | [], m => m.isEmpty
  | c :: cs, m => m.isPrefixOf (c :: cs) || includesChars cs m

/-- String `includes` of JavaScript. -/
def includes (s m : String) : Bool := includesChars s.data m.data

/-- Raw values of the action inputs by name, the empty string when not supplied. -/
abbrev Env := String → String

/-- The toolkit function `core.getInput`: throws on a required input that is
not supplied, and returns the trimmed value otherwise. -/
def getInput (env : Env) (name : String) (required : Bool) : Except String String :=
  let val := env name
  if required && val == "" then
    Except.error ("Input required and not supplied: " ++ name)
  else
    Except.ok (trim val)

/-- The toolkit function `github.getOctokit`, as far as `run` can observe it
before the first call: it throws when the token is empty. -/
def getOctokit (token : String) : Except String Unit :=
  if token == "" then Except.error "Parameter token or opts.auth is required"
  else Except.ok ()

/-! ## Data model -/

/-- Coordinates of the repository, `context.repo`. -/
structure RepoRef where
  owner : String
  repo : String
deriving DecidableEq, Repr

/-- A label object of the event payload. -/
structure Label where
  name : String
deriving DecidableEq, Repr

/-- The `pull_request` object of the event payload. -/
structure PullRequest where
  number : Nat
  labels : List Label
deriving DecidableEq, Repr

/-- The event payload. -/
structure Payload where
  pull_request : Option PullRequest
deriving DecidableEq, Repr

/-- The ambient `github.context`. -/
structure Context where
  payload : Payload
  repo : RepoRef
deriving DecidableEq, Repr

/-- Data of the get-pull-request response read by `run`. -/
structure PrData where
  additions : Int
  deletions : Int
deriving DecidableEq, Repr

/-- Author of a comment. -/
structure CommentUser where
  type : String
deriving DecidableEq, Repr

/-- An issue comment as listed by the platform, with the fields `run` reads:
`user.type` and `body`. -/
structure Comment where
  user : CommentUser
  body : String
deriving DecidableEq, Repr

/-- The platform calls `run` can issue, with their arguments. -/
inductive Call where
  | pullsGet (r : RepoRef) (pull_number : Nat)
  | removeLabel (r : RepoRef) (issue_number : Nat) (name : String)
  | getLabel (r : RepoRef) (name : String)
  | createLabel (r : RepoRef) (name : String) (color : Option String) (description : String)
  | addLabels (r : RepoRef) (issue_number : Nat) (labels : List String)
  | listComments (r : RepoRef) (issue_number : Nat)
  | createComment (r : RepoRef) (issue_number : Nat) (body : String)
deriving DecidableEq, Repr

/-- What a platform call gave back: a thrown error with its message, or its data. -/
inductive Reply where
  | threw (message : String)
  | done
  | pull (d : PrData)
  | comments (cs : List Comment)
deriving DecidableEq, Repr

/-- Value of an output. -/
inductive OutVal where
  | str (s : String)
  | num (n : Int)
deriving DecidableEq, Repr

/-- Observable effects of a run, in order. -/
inductive Event where
  | call (c : Call) (r : Reply)
  | info (m : String)
  | warning (m : String)
  | setFailed (m : String)
  | setOutput (name : String) (value : OutVal)
deriving DecidableEq, Repr

/-- The hosted platform as seen through the API client: each call answers
from the platform state and moves it. -/
structure Platform (σ : Type) where
  pullsGet : RepoRef → Nat → σ → Except String PrData × σ
  removeLabel : RepoRef → Nat → String → σ → Except String Unit × σ
  getLabel : RepoRef → String → σ → Except String Unit × σ
  createLabel : RepoRef → String → Option String → String → σ → Except String Unit × σ
  addLabels : RepoRef → Nat → List String → σ → Except String Unit × σ
  listComments : RepoRef → Nat → σ → Except String (List Comment) × σ
  createComment : RepoRef → Nat → String → σ → Except String Unit × σ

/-- The inputs as `run` holds them after reading. -/
structure Inputs where
  token : String
  smallThreshold : Option Int
  mediumThreshold : Option Int
  largeThreshold : Option Int
  commentOnLarge : Bool
deriving DecidableEq, Repr

/-- What a block of `run` leaves behind: the events it emitted, whether it
threw, and the platform state. -/
structure Outcome (σ : Type) where
  events : List Event
  thrown : Option String
  plat : σ

/-! ## The procedure `run` -/

/-- The constant `sizeLabels`. -/
def sizeLabels : List String := ["small", "medium", "large", "extra-large"]

/-- The table `labelColors`. -/
def labelColors : List (String × String) :=
  [("small", "00ff00"), ("medium", "ffff00"), ("large", "ff9900"), ("extra-large", "ff0000")]

/-- Marker phrase searched in the body of listed comments. -/
def marker : String := "Large Pull Request Detected"

/-- Lines 7 to 11: the inputs are read in this order; only the first can throw. -/
def readInputs (env : Env) : Except String Inputs := do
  let token ← getInput env "github-token" true
  let small ← getInput env "small-threshold" false
  let medium ← getInput env "medium-threshold" false
  let large ← getInput env "large-threshold" false
  let flag ← getInput env "comment-on-large" false
  pure
    { token := token
      smallThreshold := parseInt small
      mediumThreshold := parseInt medium
      largeThreshold := parseInt large
      commentOnLarge := flag == "true" }

/-- Lines 38 to 47: the size label of a total of changed lines. -/
def sizeLabelOf (totalChanges : Int)
    (smallThreshold mediumThreshold largeThreshold : Option Int) : String :=
  if jsLe totalChanges smallThreshold then "small"
  else if jsLe totalChanges mediumThreshold then "medium"
  else if jsLe totalChanges largeThreshold then "large"
  else "extra-large"

/-- Lines 56 to 58: the applied size labels other than the computed one. -/
def labelsToRemove (existingLabels : List String) (sizeLabel : String) : List String :=
  existingLabels.filter (fun label => sizeLabels.contains label && label != sizeLabel)

/-- Lines 60 to 72: one remove-label call per label, each in its own try/catch. -/
def removeLabels {σ : Type} (P : Platform σ) (r : RepoRef) (n : Nat) :
    List String → σ → List Event × σ
  | [], p => ([], p)
  | label :: rest, p =>
    match P.removeLabel r n label p with
    | (Except.ok _, p1) =>
      let tail := removeLabels P r n rest p1
      (Event.call (Call.removeLabel r n label) Reply.done ::
        Event.info ("Removed label: " ++ label) :: tail.1, tail.2)
    | (Except.error msg, p1) =>
      let tail := removeLabels P r n rest p1
      (Event.call (Call.removeLabel r n label) (Reply.threw msg) ::
        Event.warning ("Failed to remove label " ++ label ++ ": " ++ msg) :: tail.1, tail.2)

/-- Lines 77 to 104: look the label up in the repository and create it when
the lookup throws; nothing thrown here leaves the block. -/
def ensureLabel {σ : Type} (P : Platform σ) (r : RepoRef) (sizeLabel : String) (p : σ) :
    List Event × σ :=
  match P.getLabel r sizeLabel p with
  | (Except.ok _, p1) => ([Event.call (Call.getLabel r sizeLabel) Reply.done], p1)
  | (Except.error msg, p1) =>
    let color := labelColors.lookup sizeLabel
    let description := "PR size: " ++ sizeLabel
    match P.createLabel r sizeLabel color description p1 with
    | (Except.ok _, p2) =>
      ([Event.call (Call.getLabel r sizeLabel) (Reply.threw msg),
        Event.call (Call.createLabel r sizeLabel color description) Reply.done,
        Event.info ("Created label: " ++ sizeLabel)], p2)
    | (Except.error createMsg, p2) =>
      ([Event.call (Call.getLabel r sizeLabel) (Reply.threw msg),
        Event.call (Call.createLabel r sizeLabel color description) (Reply.threw createMsg),
        Event.warning ("Failed to create label " ++ sizeLabel ++ ": " ++ createMsg)], p2)

/-- Lines 75 to 114: attach the computed label unless the payload already lists it. -/
def addNewLabel {σ : Type} (P : Platform σ) (r : RepoRef) (n : Nat)
    (existingLabels : List String) (sizeLabel : String) (p : σ) : Outcome σ :=
  if existingLabels.contains sizeLabel then
    { events := [], thrown := none, plat := p }
  else
    let ensured := ensureLabel P r sizeLabel p
    match P.addLabels r n [sizeLabel] ensured.2 with
    | (Except.ok _, p2) =>
      { events := ensured.1 ++
          [Event.call (Call.addLabels r n [sizeLabel]) Reply.done,
           Event.info ("Added label: " ++ sizeLabel)]
        thrown := none
        plat := p2 }
    | (Except.error msg, p2) =>
      { events := ensured.1 ++ [Event.call (Call.addLabels r n [sizeLabel]) (Reply.threw msg)]
        thrown := some msg
        plat := p2 }

/-- Lines 118 to 133: the body of the advisory comment. -/
def commentBody (totalChanges additions deletions : Int) (sizeLabel : String)
    (mediumThreshold : Option Int) : String :=
  "## \u00e2\u0161\u00a0\u00ef\u00b8 Large Pull Request Detected\n\nThis PR has **" ++
  toString totalChanges ++ " lines changed** (+" ++ toString additions ++ "/-" ++
  toString deletions ++ "), which is marked as **" ++ sizeLabel ++ "**.\n\n" ++
  "### Why does PR size matter?\n" ++
  "- Smaller PRs are easier to review\n" ++
  "- Faster feedback cycles\n" ++
  "- Reduced risk of bugs\n" ++
  "- Better context for reviewers\n\n" ++
  "### Suggestions:\n" ++
  "- Consider breaking this PR into smaller, focused changes\n" ++
  "- Each PR should ideally address a single concern\n" ++
  "- Aim for PRs under " ++ numToString mediumThreshold ++ " lines when possible\n\n" ++
  "Thank you for your contribution! \u00f0\u0178\u0161\u20ac"

/-- Lines 142 to 145: the test of `comments.find`. -/
def isBotComment (comment : Comment) : Bool :=
  comment.user.type == "Bot" && includes comment.body marker

/-- Lines 117 to 158: the advisory comment on large pull requests. -/
def commentOnLargePr {σ : Type} (P : Platform σ) (r : RepoRef) (n : Nat)
    (commentOnLarge : Bool) (sizeLabel : String) (totalChanges additions deletions : Int)
    (mediumThreshold : Option Int) (p : σ) : Outcome σ :=
  if commentOnLarge && (sizeLabel == "large" || sizeLabel == "extra-large") then
    let body := commentBody totalChanges additions deletions sizeLabel mediumThreshold
    match P.listComments r n p with
    | (Except.error msg, p1) =>
      { events := [Event.call (Call.listComments r n) (Reply.threw msg)]
        thrown := some msg
        plat := p1 }
    | (Except.ok comments, p1) =>
      match comments.find? isBotComment with
      | none =>
        match P.createComment r n body p1 with
        | (Except.ok _, p2) =>
          { events := [Event.call (Call.listComments r n) (Reply.comments comments),
                       Event.call (Call.createComment r n body) Reply.done,
                       Event.info "Posted comment about large PR"]
            thrown := none
            plat := p2 }
        | (Except.error msg, p2) =>
          { events := [Event.call (Call.listComments r n) (Reply.comments comments),
                       Event.call (Call.createComment r n body) (Reply.threw msg)]
            thrown := some msg
            plat := p2 }
      | some _ =>
        { events := [Event.call (Call.listComments r n) (Reply.comments comments),
                     Event.info "Comment about large PR already exists, skipping"]
          thrown := none
          plat := p1 }
  else
    { events := [], thrown := none, plat := p }

/-- Lines 160 to 164: the outputs and the closing log line. -/
def finish (sizeLabel : String) (totalChanges : Int) : List Event :=
  [Event.setOutput "size-label" (OutVal.str sizeLabel),
   Event.setOutput "lines-changed" (OutVal.num totalChanges),
   Event.info "\u00e2\u0153\u2026 PR Size Checker completed successfully"]

/-- Lines 30 to 164: what `run` does once the pull request data is there. -/
def afterFetch {σ : Type} (P : Platform σ) (inp : Inputs) (r : RepoRef)
    (pullRequest : PullRequest) (prData : PrData) (p : σ) : Outcome σ :=
  let additions := prData.additions
  let deletions := prData.deletions
  let totalChanges := additions + deletions
  let sizeLabel :=
    sizeLabelOf totalChanges inp.smallThreshold inp.mediumThreshold inp.largeThreshold
  let head : List Event :=
    [Event.info ("PR #" ++ toString pullRequest.number ++ ": +" ++ toString additions ++
       " -" ++ toString deletions ++ " (total: " ++ toString totalChanges ++ " lines)"),
     Event.info ("Determined size: " ++ sizeLabel)]
  let existingLabels := pullRequest.labels.map (fun label => label.name)
  let removed :=
    removeLabels P r pullRequest.number (labelsToRemove existingLabels sizeLabel) p
  let added := addNewLabel P r pullRequest.number existingLabels sizeLabel removed.2
  match added.thrown with
  | some msg =>
    { events := head ++ removed.1 ++ added.events, thrown := some msg, plat := added.plat }
  | none =>
    let commented := commentOnLargePr P r pullRequest.number inp.commentOnLarge sizeLabel
      totalChanges additions deletions inp.mediumThreshold added.plat
    match commented.thrown with
    | some msg =>
      { events := head ++ removed.1 ++ added.events ++ commented.events
        thrown := some msg
        plat := commented.plat }
    | none =>
      { events := head ++ removed.1 ++ added.events ++ commented.events ++
          finish sizeLabel totalChanges
        thrown := none
        plat := commented.plat }

/-- Lines 6 to 164: the body of the `try` block. -/
def tryBlock {σ : Type} (P : Platform σ) (env : Env) (context : Context) (p : σ) : Outcome σ :=
  match readInputs env with
  | Except.error msg => { events := [], thrown := some msg, plat := p }
  | Except.ok inp =>
    match context.payload.pull_request with
    | none =>
      { events := [Event.setFailed "This action can only be run on pull_request events"]
        thrown := none
        plat := p }
    | some pullRequest =>
      match getOctokit inp.token with
      | Except.error msg => { events := [], thrown := some msg, plat := p }
      | Except.ok _ =>
        match P.pullsGet context.repo pullRequest.number p with
        | (Except.error msg, p1) =>
          { events :=
              [Event.call (Call.pullsGet context.repo pullRequest.number) (Reply.threw msg)]
            thrown := some msg
            plat := p1 }
        | (Except.ok prData, p1) =>
          let rest := afterFetch P inp context.repo pullRequest prData p1
          { events := Event.call (Call.pullsGet context.repo pullRequest.number)
              (Reply.pull prData) :: rest.events
            thrown := rest.thrown
            plat := rest.plat }

/-- The procedure `run`: the `try` block, and the `catch` that reports a
thrown error as the failure of the action. -/
def run {σ : Type} (P : Platform σ) (env : Env) (context : Context) (p : σ) :
    List Event × σ :=
  let body := tryBlock P env context p
  match body.thrown with
  | none => (body.events, body.plat)
  | some msg => (body.events ++ [Event.setFailed ("Action failed: " ++ msg)], body.plat)

/-! ## A reference platform

Claims about the labels and comments a run leaves on the pull request need the
effect of the calls on the platform.  `hub` is a platform holding one pull
request of one repository: attached labels, the label registry, the comment
thread, and the account type the token acts as.  A call listed by `fault`
throws whatever the state; otherwise removing a label that is not attached and
reading a label that is not registered throw, and the other calls succeed.
-/

/-- State of the reference platform. -/
structure Hub where
  additions : Int
  deletions : Int
  prLabels : List String
  repoLabels : List String
  comments : List Comment
  actorType : String
  fault : Call → Option String

/-- Answer of the reference platform to a call that reads or writes nothing on success. -/
def Hub.guard {α : Type} (w : Hub) (c : Call) (k : Except String α × Hub) :
    Except String α × Hub :=
  match w.fault c with
  | some msg => (Except.error msg, w)
  | none => k

/-- The reference platform. -/
def hub : Platform Hub where
  pullsGet r n w :=
    w.guard (Call.pullsGet r n)
      (Except.ok { additions := w.additions, deletions := w.deletions }, w)
  removeLabel r n name w :=
    w.guard (Call.removeLabel r n name)
      (if w.prLabels.contains name then
        (Except.ok (), { w with prLabels := w.prLabels.filter (fun l => l != name) })
      else (Except.error "Label does not exist", w))
  getLabel r name w :=
    w.guard (Call.getLabel r name)
      (if w.repoLabels.contains name then (Except.ok (), w)
      else (Except.error "Not Found", w))
  createLabel r name color description w :=
    w.guard (Call.createLabel r name color description)
      (if w.repoLabels.contains name then (Except.error "Validation Failed", w)
      else (Except.ok (), { w with repoLabels := w.repoLabels ++ [name] }))
  addLabels r n labels w :=
    w.guard (Call.addLabels r n labels)
      (Except.ok (),
        { w with
          prLabels := w.prLabels ++ labels.filter (fun l => !w.prLabels.contains l)
          repoLabels := w.repoLabels ++ labels.filter (fun l => !w.repoLabels.contains l) })
  listComments r n w :=
    w.guard (Call.listComments r n) (Except.ok w.comments, w)
  createComment r n body w :=
    w.guard (Call.createComment r n body)
      (Except.ok (),
        { w with comments := w.comments ++ [{ user := { type := w.actorType }, body := body }] })

/-- The context of a later run on the same pull request, whose payload lists
the given label names. -/
def withLabels (context : Context) (names : List String) : Context :=
  { context with
    payload :=
      { pull_request :=
          context.payload.pull_request.map
            (fun pr => { pr with labels := names.map (fun name => { name := name }) }) } }

/-! ## Vocabulary for statements about the events of a run -/

/-- Position of a size label in the order small, medium, large, extra-large. -/
def tierRank (label : String) : Nat := sizeLabels.indexOf label

/-- The size label `run` computes from the inputs and the fetched data. -/
def tierOf (inp : Inputs) (prData : PrData) : String :=
  sizeLabelOf (prData.additions + prData.deletions) inp.smallThreshold inp.mediumThreshold
    inp.largeThreshold

/-- The names of the labels the payload lists, `existingLabels`. -/
def existingLabels (pr : PullRequest) : List String :=
  pr.labels.map (fun label => label.name)

/-- The two log lines between the fetch and the label reconciliation. -/
def headEvents (pr : PullRequest) (prData : PrData) (sizeLabel : String) : List Event :=
  [Event.info ("PR #" ++ toString pr.number ++ ": +" ++ toString prData.additions ++
     " -" ++ toString prData.deletions ++ " (total: " ++
     toString (prData.additions + prData.deletions) ++ " lines)"),
   Event.info ("Determined size: " ++ sizeLabel)]

/-- The removal loop as `run` reaches it. -/
def removedOf {σ : Type} (P : Platform σ) (inp : Inputs) (r : RepoRef) (pr : PullRequest)
    (prData : PrData) (p : σ) : List Event × σ :=
  removeLabels P r pr.number (labelsToRemove (existingLabels pr) (tierOf inp prData)) p

/-- The label attachment as `run` reaches it. -/
def addedOf {σ : Type} (P : Platform σ) (inp : Inputs) (r : RepoRef) (pr : PullRequest)
    (prData : PrData) (p : σ) : Outcome σ :=
  addNewLabel P r pr.number (existingLabels pr) (tierOf inp prData)
    (removedOf P inp r pr prData p).2

/-- The comment step as `run` reaches it when the label attachment did not throw. -/
def commentedOf {σ : Type} (P : Platform σ) (inp : Inputs) (r : RepoRef) (pr : PullRequest)
    (prData : PrData) (p : σ) : Outcome σ :=
  commentOnLargePr P r pr.number inp.commentOnLarge (tierOf inp prData)
    (prData.additions + prData.deletions) prData.additions prData.deletions
    inp.mediumThreshold (addedOf P inp r pr prData p).plat

/-- The events of `run` after the label attachment. -/
def restEvents {σ : Type} (P : Platform σ) (inp : Inputs) (r : RepoRef) (pr : PullRequest)
    (prData : PrData) (p : σ) : List Event :=
  match (addedOf P inp r pr prData p).thrown with
  | some _ => []
  | none =>
    (commentedOf P inp r pr prData p).events ++
      match (commentedOf P inp r pr prData p).thrown with
      | some _ => []
      | none => finish (tierOf inp prData) (prData.additions + prData.deletions)

/-- What `run` throws after the fetch, if anything. -/
def thrownOf {σ : Type} (P : Platform σ) (inp : Inputs) (r : RepoRef) (pr : PullRequest)
    (prData : PrData) (p : σ) : Option String :=
  match (addedOf P inp r pr prData p).thrown with
  | some msg => some msg
  | none => (commentedOf P inp r pr prData p).thrown

/-- The labels the reference platform holds after a run that saw `existing`
in the payload while `current` were attached: the stale size labels are gone
and the computed one is attached unless the payload listed it. -/
def convergedLabels (existing current : List String) (sizeLabel : String) : List String :=
  let kept := current.filter (fun l => !(labelsToRemove existing sizeLabel).contains l)
  if existing.contains sizeLabel then kept
  else kept ++ [sizeLabel].filter (fun l => !kept.contains l)

/-- Whether a run posts the advisory comment on a thread with the given comments. -/
def postsComment (inp : Inputs) (sizeLabel : String) (comments : List Comment) : Bool :=
  (inp.commentOnLarge && (sizeLabel == "large" || sizeLabel == "extra-large")) &&
    (comments.find? isBotComment).isNone

/-- The comment thread of the reference platform after a run. -/
def commentsAfter (w : Hub) (inp : Inputs) : List Comment :=
  let prData : PrData := { additions := w.additions, deletions := w.deletions }
  if postsComment inp (tierOf inp prData) w.comments then
    w.comments ++
      [{ user := { type := w.actorType }
         body := commentBody (w.additions + w.deletions) w.additions w.deletions
           (tierOf inp prData) inp.mediumThreshold }]
  else w.comments

/-- The call of a remove-label event. -/
def removeCall : Event → Option Call
  | Event.call (Call.removeLabel r n name) _ => some (Call.removeLabel r n name)
  | _ => none

/-- Whether an event is a remove-label call. -/
def isRemoveLabel : Event → Bool
  | Event.call (Call.removeLabel _ _ _) _ => true
  | _ => false

/-- Whether an event is an add-labels call. -/
def isAddLabels : Event → Bool
  | Event.call (Call.addLabels _ _ _) _ => true
  | _ => false

/-- Whether an event is a list-comments call. -/
def isListComments : Event → Bool
  | Event.call (Call.listComments _ _) _ => true
  | _ => false

/-- Whether an event is a create-comment call. -/
def isCreateComment : Event → Bool
  | Event.call (Call.createComment _ _ _) _ => true
  | _ => false

/-- Whether an event sets an output. -/
def isSetOutput : Event → Bool
  | Event.setOutput _ _ => true
  | _ => false

/-- Whether an event reports the failure of the action. -/
def isSetFailed : Event → Bool
  | Event.setFailed _ => true
  | _ => false

/-- Whether an event is a remove-label call that threw. -/
def isRemoveThrow : Event → Bool
  | Event.call (Call.removeLabel _ _ _) (Reply.threw _) => true
  | _ => false

/-- Whether an event is a platform call that threw. -/
def isThrow : Event → Bool
  | Event.call _ (Reply.threw _) => true
  | _ => false

/-- Whether an event is a warning. -/
def isWarning : Event → Bool
  | Event.warning _ => true
  | _ => false

/-- The calls whose error is not caught near the call: get-pull-request,
add-labels, list-comments and create-comment. -/
def Call.isFatal : Call → Bool
  | Call.pullsGet _ _ => true
  | Call.addLabels _ _ _ => true
  | Call.listComments _ _ => true
  | Call.createComment _ _ _ => true
  | _ => false

/-- Whether an event is a call of the fatal kind that threw. -/
def isFatalThrow : Event → Bool
  | Event.call c (Reply.threw _) => c.isFatal
  | _ => false

/-- Events that neither stop a run nor publish or report anything: no thrown
call of the fatal kind, no output, no failure report. -/
def isCalm (e : Event) : Bool := !isFatalThrow e && !isSetOutput e && !isSetFailed e

/-- How the events of a block relate to what it threw: all events of a block
that does not throw are calm; a block that throws ends with the call that
threw, which is of the fatal kind, and all events before it are calm. -/
def Shape (evs : List Event) (thrown : Option String) : Prop :=
  match thrown with
  | none => ∀ ev ∈ evs, isCalm ev = true
  | some msg =>
    ∃ pre c, evs = pre ++ [Event.call c (Reply.threw msg)] ∧ c.isFatal = true ∧
      ∀ ev ∈ pre, isCalm ev = true

/-- What the `catch` of `run` adds to the events of the `try` block. -/
def catchTail : Option String → List Event
  | none => []
  | some msg => [Event.setFailed ("Action failed: " ++ msg)]

/-- Number of create-comment calls among events. -/
def createCount (evs : List Event) : Nat := evs.countP isCreateComment

/-- Inputs for the examples: a token, the given thresholds and flag. -/
def sampleEnv (token small medium large flag : String) : Env := fun name =>
  if name = "github-token" then token
  else if name = "small-threshold" then small
  else if name = "medium-threshold" then medium
  else if name = "large-threshold" then large
  else if name = "comment-on-large" then flag
  else ""

/-- Context for the examples: pull request 7 of a repository, with the given labels. -/
def sampleContext (labels : List String) : Context :=
  { payload := { pull_request := some { number := 7, labels := labels.map (fun n => { name := n }) } }
    repo := { owner := "octo", repo := "demo" } }

/-- Platform state for the examples, with no failing call. -/
def sampleHub (additions deletions : Int) (labels : List String) (actorType : String) : Hub :=
  { additions := additions
    deletions := deletions
    prLabels := labels
    repoLabels := []
    comments := []
    actorType := actorType
    fault := fun _ => none }

/-- What `sampleEnv` with token `t` and thresholds 50, 200, 500 is read as. -/
def sampleInputs (flag : Bool) : Inputs :=
  { token := "t"
    smallThreshold := some 50
    mediumThreshold := some 200
    largeThreshold := some 500
    commentOnLarge := flag }

/-- Platform state for the examples in which one call is made to fail. -/
def faultyHub (additions deletions : Int) (labels : List String) (actorType : String)
    (failing : Call) (msg : String) : Hub :=
  { sampleHub additions deletions labels actorType with
    fault := fun c => if c = failing then some msg else none }

/-- Platform state for the examples with no failing call and the given labels
in the registry of the repository. -/
def registeredHub (additions deletions : Int) (labels registered : List String)
    (actorType : String) : Hub :=
  { sampleHub additions deletions labels actorType with repoLabels := registered }

/-- The repository of the examples. -/
def sampleRepo : RepoRef := { owner := "octo", repo := "demo" }

/-! ## Lemmas on the blocks of `run` -/

theorem sizeLabelOf_some (t s m l : Int) :
    sizeLabelOf t (some s) (some m) (some l) =
      if t ≤ s then "small" else if t ≤ m then "medium"
      else if t ≤ l then "large" else "extra-large" := by
  simp [sizeLabelOf, jsLe]

theorem sizeLabelOf_mem (t : Int) (s m l : Option Int) : sizeLabelOf t s m l ∈ sizeLabels := by
  unfold sizeLabelOf sizeLabels
  split_ifs <;> simp

theorem tierRank_values :
    tierRank "small" = 0 ∧ tierRank "medium" = 1 ∧ tierRank "large" = 2 ∧
      tierRank "extra-large" = 3 := by
  decide

theorem readInputs_eq (env : Env) :
    readInputs env =
      if env "github-token" = "" then
        Except.error "Input required and not supplied: github-token"
      else
        Except.ok
          { token := trim (env "github-token")
            smallThreshold := parseInt (trim (env "small-threshold"))
            mediumThreshold := parseInt (trim (env "medium-threshold"))
            largeThreshold := parseInt (trim (env "large-threshold"))
            commentOnLarge := trim (env "comment-on-large") == "true" } := by
  by_cases h : env "github-token" = "" <;>
    simp [readInputs, getInput, h, bind, Except.bind, pure, Except.pure]

theorem removeLabels_calm {σ : Type} (P : Platform σ) (r : RepoRef) (n : Nat)
    (ls : List String) (p : σ) :
    ∀ ev ∈ (removeLabels P r n ls p).1, isCalm ev = true := by
  induction ls generalizing p with
  | nil => simp [removeLabels]
  | cons label rest ih =>
    intro ev hev
    unfold removeLabels at hev
    split at hev
    · simp only [List.mem_cons] at hev
      rcases hev with rfl | rfl | h
      · rfl
      · rfl
      · exact ih _ ev h
    · simp only [List.mem_cons] at hev
      rcases hev with rfl | rfl | h
      · rfl
      · rfl
      · exact ih _ ev h

theorem ensureLabel_calm {σ : Type} (P : Platform σ) (r : RepoRef) (sizeLabel : String) (p : σ) :
    ∀ ev ∈ (ensureLabel P r sizeLabel p).1, isCalm ev = true := by
  intro ev hev
  unfold ensureLabel at hev
  split at hev
  · simp at hev; subst hev; rfl
  · simp only at hev
    split at hev <;> simp at hev <;> rcases hev with rfl | rfl | rfl <;> rfl

theorem isCalm_fatal {ev : Event} (h : isCalm ev = true) : isFatalThrow ev = false := by
  simp [isCalm] at h; exact h.1.1

theorem isCalm_output {ev : Event} (h : isCalm ev = true) : isSetOutput ev = false := by
  simp [isCalm] at h; exact h.1.2

theorem isCalm_failed {ev : Event} (h : isCalm ev = true) : isSetFailed ev = false := by
  simp [isCalm] at h; exact h.2

theorem calm_append {xs ys : List Event} (hx : ∀ ev ∈ xs, isCalm ev = true)
    (hy : ∀ ev ∈ ys, isCalm ev = true) : ∀ ev ∈ xs ++ ys, isCalm ev = true := by
  intro ev hev
  rcases List.mem_append.1 hev with h | h
  · exact hx ev h
  · exact hy ev h

theorem Shape.prepend {evs : List Event} {thrown : Option String} (h : Shape evs thrown)
    (front : List Event) (hf : ∀ ev ∈ front, isCalm ev = true) :
    Shape (front ++ evs) thrown := by
  cases thrown with
  | none => exact calm_append hf h
  | some msg =>
    obtain ⟨pre, c, hev, hc, hpre⟩ := h
    refine ⟨front ++ pre, c, ?_, hc, calm_append hf hpre⟩
    rw [hev, List.append_assoc]

theorem addNewLabel_shape {σ : Type} (P : Platform σ) (r : RepoRef) (n : Nat)
    (existingLabels : List String) (sizeLabel : String) (p : σ) :
    Shape (addNewLabel P r n existingLabels sizeLabel p).events
      (addNewLabel P r n existingLabels sizeLabel p).thrown := by
  unfold addNewLabel
  split
  · simp [Shape]
  · simp only
    split
    · simp only [Shape]
      refine calm_append (ensureLabel_calm _ _ _ _) ?_
      intro ev h1
      simp at h1; rcases h1 with rfl | rfl <;> rfl
    · exact ⟨_, _, rfl, rfl, ensureLabel_calm _ _ _ _⟩

theorem commentOnLargePr_shape {σ : Type} (P : Platform σ) (r : RepoRef) (n : Nat)
    (commentOnLarge : Bool) (sizeLabel : String) (totalChanges additions deletions : Int)
    (mediumThreshold : Option Int) (p : σ) :
    Shape (commentOnLargePr P r n commentOnLarge sizeLabel totalChanges additions deletions
        mediumThreshold p).events
      (commentOnLargePr P r n commentOnLarge sizeLabel totalChanges additions deletions
        mediumThreshold p).thrown := by
  unfold commentOnLargePr
  split
  · simp only
    split
    · exact ⟨[], _, rfl, rfl, by simp⟩
    · split
      · split
        · simp [Shape, isCalm, isFatalThrow, isSetOutput, isSetFailed]
        · exact ⟨[_], _, rfl, rfl, by simp [isCalm, isFatalThrow, isSetOutput, isSetFailed]⟩
      · simp [Shape, isCalm, isFatalThrow, isSetOutput, isSetFailed]
  · simp [Shape]

/-- After the fetch, `run` either does not throw and ends with the outputs,
all earlier events being calm, or throws at a call of the fatal kind that is
its last event, all earlier events being calm. -/
theorem afterFetch_shape {σ : Type} (P : Platform σ) (inp : Inputs) (r : RepoRef)
    (pullRequest : PullRequest) (prData : PrData) (p : σ) :
    match (afterFetch P inp r pullRequest prData p).thrown with
    | none =>
      ∃ pre, (afterFetch P inp r pullRequest prData p).events =
          pre ++ finish (sizeLabelOf (prData.additions + prData.deletions) inp.smallThreshold
            inp.mediumThreshold inp.largeThreshold) (prData.additions + prData.deletions) ∧
        ∀ ev ∈ pre, isCalm ev = true
    | some msg => Shape (afterFetch P inp r pullRequest prData p).events (some msg) := by
  unfold afterFetch
  simp only
  generalize hR : removeLabels P r pullRequest.number _ p = R
  have hRc : ∀ ev ∈ R.1, isCalm ev = true := by
    rw [← hR]; exact removeLabels_calm _ _ _ _ _
  generalize hA : addNewLabel P r pullRequest.number _ _ R.2 = A
  have hAs := addNewLabel_shape P r pullRequest.number
    (pullRequest.labels.map (fun label => label.name))
    (sizeLabelOf (prData.additions + prData.deletions) inp.smallThreshold
      inp.mediumThreshold inp.largeThreshold) R.2
  rw [hA] at hAs
  have hhead : ∀ (a b : String), ∀ ev ∈ [Event.info a, Event.info b], isCalm ev = true := by
    intro a b ev hev
    simp at hev; rcases hev with rfl | rfl <;> rfl
  cases hAt : A.thrown with
  | some msg =>
    simp only
    rw [hAt] at hAs
    rw [List.append_assoc]
    exact (hAs.prepend _ hRc).prepend _ (hhead _ _)
  | none =>
    simp only
    rw [hAt] at hAs
    generalize hC : commentOnLargePr P r pullRequest.number inp.commentOnLarge _ _ _ _ _ A.plat = C
    have hCs := commentOnLargePr_shape P r pullRequest.number inp.commentOnLarge
      (sizeLabelOf (prData.additions + prData.deletions) inp.smallThreshold
        inp.mediumThreshold inp.largeThreshold)
      (prData.additions + prData.deletions) prData.additions prData.deletions
      inp.mediumThreshold A.plat
    rw [hC] at hCs
    cases hCt : C.thrown with
    | some msg =>
      simp only
      rw [hCt] at hCs
      exact hCs.prepend _ (calm_append (calm_append (hhead _ _) hRc) hAs)
    | none =>
      simp only
      rw [hCt] at hCs
      exact ⟨_, rfl, calm_append (calm_append (calm_append (hhead _ _) hRc) hAs) hCs⟩

theorem run_of_fetch {σ : Type} (P : Platform σ) (env : Env) (context : Context) (p p1 : σ)
    (inp : Inputs) (pr : PullRequest) (prData : PrData)
    (hin : readInputs env = Except.ok inp)
    (htok : inp.token ≠ "")
    (hpr : context.payload.pull_request = some pr)
    (hget : P.pullsGet context.repo pr.number p = (Except.ok prData, p1)) :
    run P env context p =
      (Event.call (Call.pullsGet context.repo pr.number) (Reply.pull prData) ::
        ((afterFetch P inp context.repo pr prData p1).events ++
          catchTail (afterFetch P inp context.repo pr prData p1).thrown),
        (afterFetch P inp context.repo pr prData p1).plat) := by
  have hoct : getOctokit inp.token = Except.ok () := by simp [getOctokit, htok]
  unfold run tryBlock
  simp only [hin, hpr, hoct, hget]
  cases (afterFetch P inp context.repo pr prData p1).thrown <;> simp [catchTail]

theorem run_cases {σ : Type} (P : Platform σ) (env : Env) (context : Context) (p : σ) :
    (∃ msg, run P env context p = ([Event.setFailed msg], p)) ∨
    (∃ inp pr msg p1, readInputs env = Except.ok inp ∧ inp.token ≠ "" ∧
      context.payload.pull_request = some pr ∧
      P.pullsGet context.repo pr.number p = (Except.error msg, p1) ∧
      run P env context p =
        ([Event.call (Call.pullsGet context.repo pr.number) (Reply.threw msg),
          Event.setFailed ("Action failed: " ++ msg)], p1)) ∨
    (∃ inp pr prData p1, readInputs env = Except.ok inp ∧ inp.token ≠ "" ∧
      context.payload.pull_request = some pr ∧
      P.pullsGet context.repo pr.number p = (Except.ok prData, p1) ∧
      run P env context p =
        (Event.call (Call.pullsGet context.repo pr.number) (Reply.pull prData) ::
          ((afterFetch P inp context.repo pr prData p1).events ++
            catchTail (afterFetch P inp context.repo pr prData p1).thrown),
          (afterFetch P inp context.repo pr prData p1).plat)) := by
  cases hin : readInputs env with
  | error msg =>
    left
    exact ⟨"Action failed: " ++ msg, by simp [run, tryBlock, hin]⟩
  | ok inp =>
    cases hpr : context.payload.pull_request with
    | none =>
      left
      exact ⟨"This action can only be run on pull_request events",
        by simp [run, tryBlock, hin, hpr]⟩
    | some pr =>
      by_cases htok : inp.token = ""
      · left
        exact ⟨"Action failed: Parameter token or opts.auth is required",
          by simp [run, tryBlock, hin, hpr, getOctokit, htok]⟩
      · right
        have hoct : getOctokit inp.token = Except.ok () := by simp [getOctokit, htok]
        rcases hget : P.pullsGet context.repo pr.number p with ⟨res, p1⟩
        cases res with
        | error msg =>
          left
          exact ⟨inp, pr, msg, p1, rfl, htok, rfl, hget,
            by simp [run, tryBlock, hin, hpr, hoct, hget]⟩
        | ok prData =>
          right
          exact ⟨inp, pr, prData, p1, rfl, htok, rfl, hget,
            run_of_fetch P env context p p1 inp pr prData hin htok hpr hget⟩

theorem afterFetch_eq {σ : Type} (P : Platform σ) (inp : Inputs) (r : RepoRef)
    (pr : PullRequest) (prData : PrData) (p : σ) :
    (afterFetch P inp r pr prData p).events =
        headEvents pr prData (tierOf inp prData) ++ (removedOf P inp r pr prData p).1 ++
          (addedOf P inp r pr prData p).events ++ restEvents P inp r pr prData p ∧
      (afterFetch P inp r pr prData p).thrown = thrownOf P inp r pr prData p := by
  unfold afterFetch restEvents thrownOf
  simp only
  rw [show addNewLabel P r pr.number (List.map (fun label => label.name) pr.labels)
      (sizeLabelOf (prData.additions + prData.deletions) inp.smallThreshold
        inp.mediumThreshold inp.largeThreshold)
      (removeLabels P r pr.number
        (labelsToRemove (List.map (fun label => label.name) pr.labels)
          (sizeLabelOf (prData.additions + prData.deletions) inp.smallThreshold
            inp.mediumThreshold inp.largeThreshold)) p).2 = addedOf P inp r pr prData p from rfl]
  cases hA : (addedOf P inp r pr prData p).thrown with
  | some msg => simp [headEvents, removedOf, tierOf, existingLabels]
  | none =>
    simp only
    rw [show commentOnLargePr P r pr.number inp.commentOnLarge
      (sizeLabelOf (prData.additions + prData.deletions) inp.smallThreshold
        inp.mediumThreshold inp.largeThreshold)
      (prData.additions + prData.deletions) prData.additions prData.deletions
      inp.mediumThreshold (addedOf P inp r pr prData p).plat = commentedOf P inp r pr prData p
      from rfl]
    cases hC : (commentedOf P inp r pr prData p).thrown with
    | some msg => simp [headEvents, removedOf, tierOf, existingLabels]
    | none => simp [headEvents, removedOf, tierOf, existingLabels]

/-- Events of a run that fetched the pull request. -/
theorem run_events {σ : Type} (P : Platform σ) (env : Env) (context : Context) (p p1 : σ)
    (inp : Inputs) (pr : PullRequest) (prData : PrData)
    (hin : readInputs env = Except.ok inp)
    (htok : inp.token ≠ "")
    (hpr : context.payload.pull_request = some pr)
    (hget : P.pullsGet context.repo pr.number p = (Except.ok prData, p1)) :
    (run P env context p).1 =
      Event.call (Call.pullsGet context.repo pr.number) (Reply.pull prData) ::
        (headEvents pr prData (tierOf inp prData) ++
          (removedOf P inp context.repo pr prData p1).1 ++
          (addedOf P inp context.repo pr prData p1).events ++
          restEvents P inp context.repo pr prData p1 ++
          catchTail (thrownOf P inp context.repo pr prData p1)) := by
  rw [run_of_fetch P env context p p1 inp pr prData hin htok hpr hget]
  obtain ⟨h1, h2⟩ := afterFetch_eq P inp context.repo pr prData p1
  simp only [h1, h2]

theorem removeLabels_calls {σ : Type} (P : Platform σ) (r : RepoRef) (n : Nat)
    (ls : List String) (p : σ) :
    (removeLabels P r n ls p).1.filterMap removeCall = ls.map (Call.removeLabel r n) := by
  induction ls generalizing p with
  | nil => simp [removeLabels]
  | cons label rest ih =>
    unfold removeLabels
    split <;> simp [removeCall, ih]

theorem removeLabels_phase {σ : Type} (P : Platform σ) (r : RepoRef) (n : Nat)
    (ls : List String) (p : σ) :
    ∀ ev ∈ (removeLabels P r n ls p).1,
      (∃ m, ev = Event.info m) ∨
      (∃ name reply, ev = Event.call (Call.removeLabel r n name) reply) ∨
      (∃ name msg, ev = Event.warning ("Failed to remove label " ++ name ++ ": " ++ msg) ∧
        Event.call (Call.removeLabel r n name) (Reply.threw msg) ∈
          (removeLabels P r n ls p).1) := by
  induction ls generalizing p with
  | nil => simp [removeLabels]
  | cons label rest ih =>
    intro ev hev
    unfold removeLabels at hev ⊢
    split at hev
    · rename_i p1 heq
      simp only [heq]
      simp only [List.mem_cons] at hev ⊢
      rcases hev with rfl | rfl | h
      · exact Or.inr (Or.inl ⟨_, _, rfl⟩)
      · exact Or.inl ⟨_, rfl⟩
      · rcases ih p1 ev h with h1 | h1 | ⟨name, msg, h1, h2⟩
        · exact Or.inl h1
        · exact Or.inr (Or.inl h1)
        · exact Or.inr (Or.inr ⟨name, msg, h1, Or.inr (Or.inr h2)⟩)
    · rename_i msg0 p1 heq
      simp only [heq]
      simp only [List.mem_cons] at hev ⊢
      rcases hev with rfl | rfl | h
      · exact Or.inr (Or.inl ⟨_, _, rfl⟩)
      · exact Or.inr (Or.inr ⟨label, msg0, rfl, Or.inl rfl⟩)
      · rcases ih p1 ev h with h1 | h1 | ⟨name, msg, h1, h2⟩
        · exact Or.inl h1
        · exact Or.inr (Or.inl h1)
        · exact Or.inr (Or.inr ⟨name, msg, h1, Or.inr (Or.inr h2)⟩)

theorem removeLabels_warned {σ : Type} (P : Platform σ) (r : RepoRef) (n : Nat)
    (ls : List String) (p : σ) (r0 : RepoRef) (n0 : Nat) (name msg : String)
    (h : Event.call (Call.removeLabel r0 n0 name) (Reply.threw msg) ∈
      (removeLabels P r n ls p).1) :
    ∃ pre post, (removeLabels P r n ls p).1 =
      pre ++ Event.call (Call.removeLabel r0 n0 name) (Reply.threw msg) ::
        Event.warning ("Failed to remove label " ++ name ++ ": " ++ msg) :: post := by
  induction ls generalizing p with
  | nil => simp [removeLabels] at h
  | cons label rest ih =>
    unfold removeLabels at h ⊢
    split at h
    · rename_i p1 heq
      simp only [heq]
      simp only [List.mem_cons] at h
      rcases h with h | h | h
      · simp at h
      · simp at h
      · obtain ⟨pre, post, hpp⟩ := ih p1 h
        exact ⟨Event.call (Call.removeLabel r n label) Reply.done ::
          Event.info ("Removed label: " ++ label) :: pre, post, by simp [hpp]⟩
    · rename_i msg0 p1 heq
      simp only [heq]
      simp only [List.mem_cons] at h
      rcases h with h | h | h
      · simp at h
        obtain ⟨⟨rfl, rfl, rfl⟩, rfl⟩ := h
        exact ⟨[], _, rfl⟩
      · simp at h
      · obtain ⟨pre, post, hpp⟩ := ih p1 h
        exact ⟨Event.call (Call.removeLabel r n label) (Reply.threw msg0) ::
          Event.warning ("Failed to remove label " ++ label ++ ": " ++ msg0) :: pre, post,
          by simp [hpp]⟩

theorem labelsToRemove_mem (existing : List String) (sizeLabel name : String) :
    name ∈ labelsToRemove existing sizeLabel ↔
      name ∈ existing ∧ name ∈ sizeLabels ∧ name ≠ sizeLabel := by
  simp [labelsToRemove]

theorem ensureLabel_cases {σ : Type} (P : Platform σ) (r : RepoRef) (sizeLabel : String) (p : σ) :
    (ensureLabel P r sizeLabel p).1 = [Event.call (Call.getLabel r sizeLabel) Reply.done] ∨
    (∃ msg, (ensureLabel P r sizeLabel p).1 =
      [Event.call (Call.getLabel r sizeLabel) (Reply.threw msg),
       Event.call (Call.createLabel r sizeLabel (labelColors.lookup sizeLabel)
         ("PR size: " ++ sizeLabel)) Reply.done,
       Event.info ("Created label: " ++ sizeLabel)]) ∨
    (∃ msg createMsg, (ensureLabel P r sizeLabel p).1 =
      [Event.call (Call.getLabel r sizeLabel) (Reply.threw msg),
       Event.call (Call.createLabel r sizeLabel (labelColors.lookup sizeLabel)
         ("PR size: " ++ sizeLabel)) (Reply.threw createMsg),
       Event.warning ("Failed to create label " ++ sizeLabel ++ ": " ++ createMsg)]) := by
  unfold ensureLabel
  split
  · exact Or.inl rfl
  · simp only
    split
    · exact Or.inr (Or.inl ⟨_, rfl⟩)
    · exact Or.inr (Or.inr ⟨_, _, rfl⟩)

theorem addNewLabel_cases {σ : Type} (P : Platform σ) (r : RepoRef) (n : Nat)
    (existing : List String) (sizeLabel : String) (p : σ) :
    (existing.contains sizeLabel = true ∧
      (addNewLabel P r n existing sizeLabel p).events = [] ∧
      (addNewLabel P r n existing sizeLabel p).thrown = none) ∨
    (existing.contains sizeLabel = false ∧
      (addNewLabel P r n existing sizeLabel p).events =
        (ensureLabel P r sizeLabel p).1 ++
          [Event.call (Call.addLabels r n [sizeLabel]) Reply.done,
           Event.info ("Added label: " ++ sizeLabel)] ∧
      (addNewLabel P r n existing sizeLabel p).thrown = none) ∨
    (existing.contains sizeLabel = false ∧ ∃ msg,
      (addNewLabel P r n existing sizeLabel p).events =
        (ensureLabel P r sizeLabel p).1 ++
          [Event.call (Call.addLabels r n [sizeLabel]) (Reply.threw msg)] ∧
      (addNewLabel P r n existing sizeLabel p).thrown = some msg) := by
  unfold addNewLabel
  by_cases h : existing.contains sizeLabel = true
  · rw [if_pos h]
    exact Or.inl ⟨h, rfl, rfl⟩
  · rw [if_neg h]
    simp only [Bool.not_eq_true] at h
    right
    simp only
    split
    · exact Or.inl ⟨h, rfl, rfl⟩
    · exact Or.inr ⟨h, _, rfl, rfl⟩

theorem commentOnLargePr_cases {σ : Type} (P : Platform σ) (r : RepoRef) (n : Nat)
    (commentOnLarge : Bool) (sizeLabel : String) (t a d : Int)
    (mediumThreshold : Option Int) (p : σ) :
    ((commentOnLarge && (sizeLabel == "large" || sizeLabel == "extra-large")) = false ∧
      (commentOnLargePr P r n commentOnLarge sizeLabel t a d mediumThreshold p).events = [] ∧
      (commentOnLargePr P r n commentOnLarge sizeLabel t a d mediumThreshold p).thrown = none) ∨
    ((commentOnLarge && (sizeLabel == "large" || sizeLabel == "extra-large")) = true ∧
      ((∃ msg,
        (commentOnLargePr P r n commentOnLarge sizeLabel t a d mediumThreshold p).events =
          [Event.call (Call.listComments r n) (Reply.threw msg)] ∧
        (commentOnLargePr P r n commentOnLarge sizeLabel t a d mediumThreshold p).thrown =
          some msg) ∨
      (∃ cs, cs.find? isBotComment = none ∧
        (commentOnLargePr P r n commentOnLarge sizeLabel t a d mediumThreshold p).events =
          [Event.call (Call.listComments r n) (Reply.comments cs),
           Event.call (Call.createComment r n (commentBody t a d sizeLabel mediumThreshold))
             Reply.done,
           Event.info "Posted comment about large PR"] ∧
        (commentOnLargePr P r n commentOnLarge sizeLabel t a d mediumThreshold p).thrown =
          none) ∨
      (∃ cs msg, cs.find? isBotComment = none ∧
        (commentOnLargePr P r n commentOnLarge sizeLabel t a d mediumThreshold p).events =
          [Event.call (Call.listComments r n) (Reply.comments cs),
           Event.call (Call.createComment r n (commentBody t a d sizeLabel mediumThreshold))
             (Reply.threw msg)] ∧
        (commentOnLargePr P r n commentOnLarge sizeLabel t a d mediumThreshold p).thrown =
          some msg) ∨
      (∃ cs c, cs.find? isBotComment = some c ∧
        (commentOnLargePr P r n commentOnLarge sizeLabel t a d mediumThreshold p).events =
          [Event.call (Call.listComments r n) (Reply.comments cs),
           Event.info "Comment about large PR already exists, skipping"] ∧
        (commentOnLargePr P r n commentOnLarge sizeLabel t a d mediumThreshold p).thrown =
          none))) := by
  unfold commentOnLargePr
  by_cases h : (commentOnLarge && (sizeLabel == "large" || sizeLabel == "extra-large")) = true
  · rw [if_pos h]
    right
    refine ⟨h, ?_⟩
    simp only
    split
    · exact Or.inl ⟨_, rfl, rfl⟩
    · rename_i cs p1 heq
      split
      · rename_i hfind
        split
        · exact Or.inr (Or.inl ⟨cs, hfind, rfl, rfl⟩)
        · exact Or.inr (Or.inr (Or.inl ⟨cs, _, hfind, rfl, rfl⟩))
      · rename_i c hfind
        exact Or.inr (Or.inr (Or.inr ⟨cs, c, hfind, rfl, rfl⟩))
  · rw [if_neg h]
    simp only [Bool.not_eq_true] at h
    exact Or.inl ⟨h, rfl, rfl⟩

theorem addNewLabel_phase {σ : Type} (P : Platform σ) (r : RepoRef) (n : Nat)
    (existing : List String) (sizeLabel : String) (p : σ) :
    ∀ ev ∈ (addNewLabel P r n existing sizeLabel p).events,
      (∃ m, ev = Event.info m) ∨
      (∃ reply, ev = Event.call (Call.getLabel r sizeLabel) reply) ∨
      (∃ reply, ev = Event.call (Call.createLabel r sizeLabel (labelColors.lookup sizeLabel)
        ("PR size: " ++ sizeLabel)) reply) ∨
      (∃ reply, ev = Event.call (Call.addLabels r n [sizeLabel]) reply) ∨
      (∃ msg, ev = Event.warning ("Failed to create label " ++ sizeLabel ++ ": " ++ msg) ∧
        Event.call (Call.createLabel r sizeLabel (labelColors.lookup sizeLabel)
          ("PR size: " ++ sizeLabel)) (Reply.threw msg) ∈
          (addNewLabel P r n existing sizeLabel p).events) := by
  intro ev hev
  rcases addNewLabel_cases P r n existing sizeLabel p with ⟨_, h, _⟩ | ⟨_, h, _⟩ | ⟨_, msg, h, _⟩ <;>
    rw [h] at hev ⊢
  · simp at hev
  all_goals
    rcases ensureLabel_cases P r sizeLabel p with he | ⟨m1, he⟩ | ⟨m1, m2, he⟩ <;>
      rw [he] at hev ⊢ <;> simp at hev ⊢ <;> aesop

theorem restEvents_phase {σ : Type} (P : Platform σ) (inp : Inputs) (r : RepoRef)
    (pr : PullRequest) (prData : PrData) (p : σ) :
    ∀ ev ∈ restEvents P inp r pr prData p,
      (∃ m, ev = Event.info m) ∨
      (∃ reply, ev = Event.call (Call.listComments r pr.number) reply) ∨
      (∃ reply, ev = Event.call (Call.createComment r pr.number
        (commentBody (prData.additions + prData.deletions) prData.additions prData.deletions
          (tierOf inp prData) inp.mediumThreshold)) reply) ∨
      (∃ name v, ev = Event.setOutput name v) := by
  intro ev hev
  unfold restEvents at hev
  split at hev
  · simp at hev
  · have hc := commentOnLargePr_cases P r pr.number inp.commentOnLarge (tierOf inp prData)
      (prData.additions + prData.deletions) prData.additions prData.deletions
      inp.mediumThreshold (addedOf P inp r pr prData p).plat
    change _ ∈ (commentedOf P inp r pr prData p).events ++ _ at hev
    unfold commentedOf at hev
    rcases hc with ⟨_, h, ht⟩ | ⟨_, ⟨msg, h, ht⟩ | ⟨cs, _, h, ht⟩ | ⟨cs, msg, _, h, ht⟩ |
        ⟨cs, c, _, h, ht⟩⟩ <;>
      rw [h, ht] at hev <;> simp [finish] at hev <;> aesop

theorem filterMap_removeCall_nil (l : List Event)
    (h : ∀ ev ∈ l, ∀ r n name reply, ev ≠ Event.call (Call.removeLabel r n name) reply) :
    l.filterMap removeCall = [] := by
  rw [List.filterMap_eq_nil_iff]
  intro ev hev
  have := h ev hev
  unfold removeCall
  split
  · rename_i r n name reply
    exact absurd rfl (this r n name reply)
  · rfl

theorem headEvents_removeCall (pr : PullRequest) (prData : PrData) (sizeLabel : String) :
    (headEvents pr prData sizeLabel).filterMap removeCall = [] := by
  simp [headEvents, removeCall]

theorem added_removeCall {σ : Type} (P : Platform σ) (r : RepoRef) (n : Nat)
    (existing : List String) (sizeLabel : String) (p : σ) :
    (addNewLabel P r n existing sizeLabel p).events.filterMap removeCall = [] := by
  apply filterMap_removeCall_nil
  intro ev hev r0 n0 name reply heq
  rcases addNewLabel_phase P r n existing sizeLabel p ev hev with
    ⟨m, h⟩ | ⟨m, h⟩ | ⟨m, h⟩ | ⟨m, h⟩ | ⟨m, h, _⟩ <;> rw [h] at heq <;> simp at heq

theorem rest_removeCall {σ : Type} (P : Platform σ) (inp : Inputs) (r : RepoRef)
    (pr : PullRequest) (prData : PrData) (p : σ) :
    (restEvents P inp r pr prData p).filterMap removeCall = [] := by
  apply filterMap_removeCall_nil
  intro ev hev r0 n0 name reply heq
  rcases restEvents_phase P inp r pr prData p ev hev with
    ⟨m, h⟩ | ⟨m, h⟩ | ⟨m, h⟩ | ⟨m, v, h⟩ <;> rw [h] at heq <;> simp at heq

theorem catchTail_removeCall (t : Option String) : (catchTail t).filterMap removeCall = [] := by
  cases t <;> simp [catchTail, removeCall]

theorem added_thrown_fatal {σ : Type} (P : Platform σ) (r : RepoRef) (n : Nat)
    (existing : List String) (sizeLabel : String) (p : σ) (msg : String)
    (h : (addNewLabel P r n existing sizeLabel p).thrown = some msg) :
    Event.call (Call.addLabels r n [sizeLabel]) (Reply.threw msg) ∈
      (addNewLabel P r n existing sizeLabel p).events := by
  rcases addNewLabel_cases P r n existing sizeLabel p with ⟨_, _, ht⟩ | ⟨_, _, ht⟩ |
    ⟨_, m, he, ht⟩
  · rw [ht] at h; cases h
  · rw [ht] at h; cases h
  · rw [ht] at h; cases h
    rw [he]; simp

/-- Whatever the label calls did, a run in which no call of the fatal kind
threw ends with the outputs. -/
theorem run_completes {σ : Type} (P : Platform σ) (env : Env) (context : Context) (p p1 : σ)
    (inp : Inputs) (pr : PullRequest) (prData : PrData)
    (hin : readInputs env = Except.ok inp)
    (htok : inp.token ≠ "")
    (hpr : context.payload.pull_request = some pr)
    (hget : P.pullsGet context.repo pr.number p = (Except.ok prData, p1))
    (hcalm : ∀ ev ∈ (run P env context p).1, isFatalThrow ev = false) :
    ∃ pre, (run P env context p).1 =
      pre ++ finish (tierOf inp prData) (prData.additions + prData.deletions) := by
  have hrun := run_of_fetch P env context p p1 inp pr prData hin htok hpr hget
  have hsh := afterFetch_shape P inp context.repo pr prData p1
  cases hthrown : (afterFetch P inp context.repo pr prData p1).thrown with
  | some msg =>
    rw [hthrown] at hsh
    obtain ⟨pre, c, hev, hc, _⟩ := hsh
    have := hcalm (Event.call c (Reply.threw msg)) (by rw [hrun, hev]; simp)
    simp [isFatalThrow, hc] at this
  | none =>
    rw [hthrown] at hsh
    obtain ⟨pre, hev, _⟩ := hsh
    refine ⟨Event.call (Call.pullsGet context.repo pr.number) (Reply.pull prData) :: pre, ?_⟩
    rw [hrun, hthrown, hev]
    simp [catchTail, tierOf]

theorem mem_run_events {σ : Type} (P : Platform σ) (env : Env) (context : Context) (p p1 : σ)
    (inp : Inputs) (pr : PullRequest) (prData : PrData)
    (hin : readInputs env = Except.ok inp)
    (htok : inp.token ≠ "")
    (hpr : context.payload.pull_request = some pr)
    (hget : P.pullsGet context.repo pr.number p = (Except.ok prData, p1)) (ev : Event) :
    ev ∈ (run P env context p).1 ↔
      ev = Event.call (Call.pullsGet context.repo pr.number) (Reply.pull prData) ∨
      ev ∈ headEvents pr prData (tierOf inp prData) ∨
      ev ∈ (removedOf P inp context.repo pr prData p1).1 ∨
      ev ∈ (addedOf P inp context.repo pr prData p1).events ∨
      ev ∈ restEvents P inp context.repo pr prData p1 ∨
      ev ∈ catchTail (thrownOf P inp context.repo pr prData p1) := by
  rw [run_events P env context p p1 inp pr prData hin htok hpr hget]
  simp only [List.mem_cons, List.mem_append, or_assoc]

theorem mem_catchTail {t : Option String} {ev : Event} (h : ev ∈ catchTail t) :
    ∃ m, ev = Event.setFailed m := by
  cases t with
  | none => simp [catchTail] at h
  | some msg => exact ⟨_, by simpa [catchTail] using h⟩

theorem mem_headEvents {pr : PullRequest} {prData : PrData} {sizeLabel : String} {ev : Event}
    (h : ev ∈ headEvents pr prData sizeLabel) : ∃ m, ev = Event.info m := by
  simp only [headEvents, List.mem_cons, List.mem_singleton, List.not_mem_nil, or_false] at h
  rcases h with h | h <;> exact ⟨_, h⟩

/-- A call on the label registry or the attachment call of a run belongs to
the label attachment block. -/
theorem mem_added_of_mem_run {σ : Type} (P : Platform σ) (env : Env) (context : Context)
    (p p1 : σ) (inp : Inputs) (pr : PullRequest) (prData : PrData)
    (hin : readInputs env = Except.ok inp)
    (htok : inp.token ≠ "")
    (hpr : context.payload.pull_request = some pr)
    (hget : P.pullsGet context.repo pr.number p = (Except.ok prData, p1)) (c : Call)
    (reply : Reply)
    (hc : (∃ r name, c = Call.getLabel r name) ∨
      (∃ r name color description, c = Call.createLabel r name color description) ∨
      (∃ r n labels, c = Call.addLabels r n labels))
    (h : Event.call c reply ∈ (run P env context p).1) :
    Event.call c reply ∈ (addedOf P inp context.repo pr prData p1).events := by
  rw [mem_run_events P env context p p1 inp pr prData hin htok hpr hget] at h
  rcases h with h | h | h | h | h | h
  · rcases hc with ⟨_, _, rfl⟩ | ⟨_, _, _, _, rfl⟩ | ⟨_, _, _, rfl⟩ <;> simp at h
  · obtain ⟨m, h⟩ := mem_headEvents h; cases h
  · rcases removeLabels_phase P context.repo pr.number _ p1 _ h with
      ⟨m, h⟩ | ⟨m, v, h⟩ | ⟨m, v, h, _⟩
    · cases h
    · rcases hc with ⟨_, _, rfl⟩ | ⟨_, _, _, _, rfl⟩ | ⟨_, _, _, rfl⟩ <;> simp at h
    · cases h
  · exact h
  · rcases restEvents_phase P inp context.repo pr prData p1 _ h with
      ⟨m, h⟩ | ⟨m, h⟩ | ⟨m, h⟩ | ⟨m, v, h⟩
    · cases h
    · rcases hc with ⟨_, _, rfl⟩ | ⟨_, _, _, _, rfl⟩ | ⟨_, _, _, rfl⟩ <;> simp at h
    · rcases hc with ⟨_, _, rfl⟩ | ⟨_, _, _, _, rfl⟩ | ⟨_, _, _, rfl⟩ <;> simp at h
    · cases h
  · obtain ⟨m, h⟩ := mem_catchTail h; cases h

theorem addLabels_issued {σ : Type} (P : Platform σ) (r : RepoRef) (n : Nat)
    (existing : List String) (sizeLabel : String) (p : σ)
    (hnot : existing.contains sizeLabel = false) :
    ∃ reply, Event.call (Call.addLabels r n [sizeLabel]) reply ∈
      (addNewLabel P r n existing sizeLabel p).events := by
  rcases addNewLabel_cases P r n existing sizeLabel p with ⟨hc, _, _⟩ | ⟨_, he, _⟩ |
    ⟨_, m, he, _⟩
  · rw [hnot] at hc; cases hc
  · exact ⟨Reply.done, by rw [he]; simp⟩
  · exact ⟨Reply.threw m, by rw [he]; simp⟩

theorem restEvents_cases {σ : Type} (P : Platform σ) (inp : Inputs) (r : RepoRef)
    (pr : PullRequest) (prData : PrData) (p : σ) :
    ((∃ msg, (addedOf P inp r pr prData p).thrown = some msg) ∧
      restEvents P inp r pr prData p = []) ∨
    ((addedOf P inp r pr prData p).thrown = none ∧
      (((inp.commentOnLarge &&
          (tierOf inp prData == "large" || tierOf inp prData == "extra-large")) = false ∧
        restEvents P inp r pr prData p =
          finish (tierOf inp prData) (prData.additions + prData.deletions)) ∨
      ((inp.commentOnLarge &&
          (tierOf inp prData == "large" || tierOf inp prData == "extra-large")) = true ∧
        ((∃ msg, restEvents P inp r pr prData p =
            [Event.call (Call.listComments r pr.number) (Reply.threw msg)]) ∨
        (∃ cs, cs.find? isBotComment = none ∧
          restEvents P inp r pr prData p =
            [Event.call (Call.listComments r pr.number) (Reply.comments cs),
             Event.call (Call.createComment r pr.number
               (commentBody (prData.additions + prData.deletions) prData.additions
                 prData.deletions (tierOf inp prData) inp.mediumThreshold)) Reply.done,
             Event.info "Posted comment about large PR"] ++
            finish (tierOf inp prData) (prData.additions + prData.deletions)) ∨
        (∃ cs msg, cs.find? isBotComment = none ∧
          restEvents P inp r pr prData p =
            [Event.call (Call.listComments r pr.number) (Reply.comments cs),
             Event.call (Call.createComment r pr.number
               (commentBody (prData.additions + prData.deletions) prData.additions
                 prData.deletions (tierOf inp prData) inp.mediumThreshold))
               (Reply.threw msg)]) ∨
        (∃ cs c, cs.find? isBotComment = some c ∧
          restEvents P inp r pr prData p =
            [Event.call (Call.listComments r pr.number) (Reply.comments cs),
             Event.info "Comment about large PR already exists, skipping"] ++
            finish (tierOf inp prData) (prData.additions + prData.deletions)))))) := by
  unfold restEvents
  cases hA : (addedOf P inp r pr prData p).thrown with
  | some msg => exact Or.inl ⟨⟨msg, rfl⟩, rfl⟩
  | none =>
    right
    refine ⟨rfl, ?_⟩
    simp only
    have hc := commentOnLargePr_cases P r pr.number inp.commentOnLarge (tierOf inp prData)
      (prData.additions + prData.deletions) prData.additions prData.deletions
      inp.mediumThreshold (addedOf P inp r pr prData p).plat
    unfold commentedOf
    rcases hc with ⟨hw, h, ht⟩ | ⟨hw, ⟨msg, h, ht⟩ | ⟨cs, hf, h, ht⟩ | ⟨cs, msg, hf, h, ht⟩ |
        ⟨cs, c, hf, h, ht⟩⟩ <;> rw [h, ht]
    · exact Or.inl ⟨hw, rfl⟩
    · exact Or.inr ⟨hw, Or.inl ⟨msg, rfl⟩⟩
    · exact Or.inr ⟨hw, Or.inr (Or.inl ⟨cs, hf, rfl⟩)⟩
    · exact Or.inr ⟨hw, Or.inr (Or.inr (Or.inl ⟨cs, msg, hf, rfl⟩))⟩
    · exact Or.inr ⟨hw, Or.inr (Or.inr (Or.inr ⟨cs, c, hf, rfl⟩))⟩

theorem createCount_eq_zero (l : List Event) (h : ∀ ev ∈ l, isCreateComment ev = false) :
    createCount l = 0 := by
  unfold createCount
  rw [List.countP_eq_zero]
  intro ev hev
  simp [h ev hev]

/-- The create-comment calls of a run are those of its events after the label attachment. -/
theorem createCount_run {σ : Type} (P : Platform σ) (env : Env) (context : Context)
    (p p1 : σ) (inp : Inputs) (pr : PullRequest) (prData : PrData)
    (hin : readInputs env = Except.ok inp)
    (htok : inp.token ≠ "")
    (hpr : context.payload.pull_request = some pr)
    (hget : P.pullsGet context.repo pr.number p = (Except.ok prData, p1)) :
    createCount (run P env context p).1 =
      createCount (restEvents P inp context.repo pr prData p1) := by
  rw [run_events P env context p p1 inp pr prData hin htok hpr hget]
  have h1 : createCount (headEvents pr prData (tierOf inp prData)) = 0 :=
    createCount_eq_zero _ (fun ev h => by obtain ⟨m, rfl⟩ := mem_headEvents h; rfl)
  have h2 : createCount (removedOf P inp context.repo pr prData p1).1 = 0 :=
    createCount_eq_zero _ (fun ev h => by
      rcases removeLabels_phase P context.repo pr.number _ p1 _ h with
        ⟨m, rfl⟩ | ⟨m, v, rfl⟩ | ⟨m, v, rfl, _⟩ <;> rfl)
  have h3 : createCount (addedOf P inp context.repo pr prData p1).events = 0 :=
    createCount_eq_zero _ (fun ev h => by
      rcases addNewLabel_phase P context.repo pr.number _ _ _ _ h with
        ⟨m, rfl⟩ | ⟨m, rfl⟩ | ⟨m, rfl⟩ | ⟨m, rfl⟩ | ⟨m, rfl, _⟩ <;> rfl)
  have h4 : createCount (catchTail (thrownOf P inp context.repo pr prData p1)) = 0 :=
    createCount_eq_zero _ (fun ev h => by obtain ⟨m, rfl⟩ := mem_catchTail h; rfl)
  unfold createCount at *
  simp only [List.countP_cons, List.countP_append, h1, h2, h3, h4, isCreateComment]
  simp

/-- A list-comments or create-comment call of a run is among its events after
the label attachment. -/
theorem mem_rest_of_mem_run {σ : Type} (P : Platform σ) (env : Env) (context : Context)
    (p p1 : σ) (inp : Inputs) (pr : PullRequest) (prData : PrData)
    (hin : readInputs env = Except.ok inp)
    (htok : inp.token ≠ "")
    (hpr : context.payload.pull_request = some pr)
    (hget : P.pullsGet context.repo pr.number p = (Except.ok prData, p1)) (ev : Event)
    (hc : isListComments ev = true ∨ isCreateComment ev = true)
    (h : ev ∈ (run P env context p).1) :
    ev ∈ restEvents P inp context.repo pr prData p1 := by
  rw [mem_run_events P env context p p1 inp pr prData hin htok hpr hget] at h
  rcases h with h | h | h | h | h | h
  · subst h; simp [isListComments, isCreateComment] at hc
  · obtain ⟨m, rfl⟩ := mem_headEvents h; simp [isListComments, isCreateComment] at hc
  · rcases removeLabels_phase P context.repo pr.number _ p1 _ h with
      ⟨m, rfl⟩ | ⟨m, v, rfl⟩ | ⟨m, v, rfl, _⟩ <;> simp [isListComments, isCreateComment] at hc
  · rcases addNewLabel_phase P context.repo pr.number _ _ _ _ h with
      ⟨m, rfl⟩ | ⟨m, rfl⟩ | ⟨m, rfl⟩ | ⟨m, rfl⟩ | ⟨m, rfl, _⟩ <;>
      simp [isListComments, isCreateComment] at hc
  · exact h
  · obtain ⟨m, rfl⟩ := mem_catchTail h; simp [isListComments, isCreateComment] at hc

theorem wanted_iff (flag : Bool) (tier : String) :
    (flag && (tier == "large" || tier == "extra-large")) = true ↔
      flag = true ∧ (tier = "large" ∨ tier = "extra-large") := by
  simp

theorem find_bot_none (cs : List Comment) :
    cs.find? isBotComment = none ↔
      ∀ c ∈ cs, ¬ (c.user.type = "Bot" ∧ includes c.body marker = true) := by
  simp [List.find?_eq_none, isBotComment]

theorem rest_count_le {σ : Type} (P : Platform σ) (inp : Inputs) (r : RepoRef)
    (pr : PullRequest) (prData : PrData) (p : σ) :
    createCount (restEvents P inp r pr prData p) ≤ 1 := by
  rcases restEvents_cases P inp r pr prData p with
    ⟨_, he⟩ | ⟨_, ⟨_, he⟩ | ⟨_, ⟨m, he⟩ | ⟨cs, _, he⟩ | ⟨cs, m, _, he⟩ | ⟨cs, c, _, he⟩⟩⟩ <;>
    rw [he] <;> simp [createCount, finish, isCreateComment]

theorem rest_list_calls {σ : Type} (P : Platform σ) (inp : Inputs) (r : RepoRef)
    (pr : PullRequest) (prData : PrData) (p : σ) :
    ∀ ev ∈ restEvents P inp r pr prData p, isListComments ev = true →
      (∃ reply, ev = Event.call (Call.listComments r pr.number) reply) ∧
      inp.commentOnLarge = true ∧
      (tierOf inp prData = "large" ∨ tierOf inp prData = "extra-large") := by
  rcases restEvents_cases P inp r pr prData p with
    ⟨_, he⟩ | ⟨_, ⟨_, he⟩ | ⟨hw, ⟨m, he⟩ | ⟨cs, _, he⟩ | ⟨cs, m, _, he⟩ | ⟨cs, c, _, he⟩⟩⟩ <;>
    rw [he] <;> simp [finish, isListComments]
  all_goals exact (wanted_iff _ _).1 hw

theorem rest_create_calls {σ : Type} (P : Platform σ) (inp : Inputs) (r : RepoRef)
    (pr : PullRequest) (prData : PrData) (p : σ) :
    ∀ ev ∈ restEvents P inp r pr prData p, isCreateComment ev = true →
      (∃ reply, ev = Event.call (Call.createComment r pr.number
        (commentBody (prData.additions + prData.deletions) prData.additions prData.deletions
          (tierOf inp prData) inp.mediumThreshold)) reply) ∧
      inp.commentOnLarge = true ∧
      (tierOf inp prData = "large" ∨ tierOf inp prData = "extra-large") ∧
      ∃ cs, Event.call (Call.listComments r pr.number) (Reply.comments cs) ∈
          restEvents P inp r pr prData p ∧
        cs.find? isBotComment = none := by
  rcases restEvents_cases P inp r pr prData p with
    ⟨_, he⟩ | ⟨_, ⟨_, he⟩ | ⟨hw, ⟨m, he⟩ | ⟨cs, hf, he⟩ | ⟨cs, m, hf, he⟩ | ⟨cs, c, _, he⟩⟩⟩ <;>
    rw [he] <;> simp [finish, isCreateComment]
  all_goals exact ⟨(wanted_iff _ _).1 hw |>.1, (wanted_iff _ _).1 hw |>.2, by simpa using hf⟩

theorem rest_count_of_list {σ : Type} (P : Platform σ) (inp : Inputs) (r : RepoRef)
    (pr : PullRequest) (prData : PrData) (p : σ) (r0 : RepoRef) (n0 : Nat)
    (cs : List Comment)
    (h : Event.call (Call.listComments r0 n0) (Reply.comments cs) ∈
      restEvents P inp r pr prData p) :
    (cs.find? isBotComment = none → createCount (restEvents P inp r pr prData p) = 1) ∧
    (∀ c, cs.find? isBotComment = some c → createCount (restEvents P inp r pr prData p) = 0) := by
  rcases restEvents_cases P inp r pr prData p with
    ⟨_, he⟩ | ⟨_, ⟨_, he⟩ | ⟨hw, ⟨m, he⟩ | ⟨cs1, hf, he⟩ | ⟨cs1, m, hf, he⟩ |
      ⟨cs1, c1, hf, he⟩⟩⟩ <;>
    rw [he] at h ⊢ <;> simp [finish] at h
  all_goals
    obtain ⟨_, rfl⟩ := h
    simp [createCount, finish, isCreateComment, hf]

theorem rest_count_of_list_threw {σ : Type} (P : Platform σ) (inp : Inputs) (r : RepoRef)
    (pr : PullRequest) (prData : PrData) (p : σ) (r0 : RepoRef) (n0 : Nat) (msg : String)
    (h : Event.call (Call.listComments r0 n0) (Reply.threw msg) ∈
      restEvents P inp r pr prData p) :
    createCount (restEvents P inp r pr prData p) = 0 := by
  rcases restEvents_cases P inp r pr prData p with
    ⟨_, he⟩ | ⟨_, ⟨_, he⟩ | ⟨hw, ⟨m, he⟩ | ⟨cs1, hf, he⟩ | ⟨cs1, m, hf, he⟩ |
      ⟨cs1, c1, hf, he⟩⟩⟩ <;>
    rw [he] at h ⊢ <;> simp [finish] at h
  simp [createCount, isCreateComment]

theorem rest_list_issued {σ : Type} (P : Platform σ) (inp : Inputs) (r : RepoRef)
    (pr : PullRequest) (prData : PrData) (p : σ)
    (hA : (addedOf P inp r pr prData p).thrown = none)
    (hflag : inp.commentOnLarge = true)
    (htier : tierOf inp prData = "large" ∨ tierOf inp prData = "extra-large") :
    ∃ reply, Event.call (Call.listComments r pr.number) reply ∈
      restEvents P inp r pr prData p := by
  have hw := (wanted_iff _ _).2 ⟨hflag, htier⟩
  rcases restEvents_cases P inp r pr prData p with
    ⟨⟨m, hm⟩, he⟩ | ⟨_, ⟨hw1, he⟩ | ⟨_, ⟨m, he⟩ | ⟨cs1, hf, he⟩ | ⟨cs1, m, hf, he⟩ |
      ⟨cs1, c1, hf, he⟩⟩⟩
  · rw [hA] at hm; cases hm
  · rw [hw] at hw1; cases hw1
  · exact ⟨Reply.threw m, by rw [he]; simp⟩
  · exact ⟨Reply.comments cs1, by rw [he]; simp⟩
  · exact ⟨Reply.comments cs1, by rw [he]; simp⟩
  · exact ⟨Reply.comments cs1, by rw [he]; simp⟩

theorem hub_getLabel_state (r : RepoRef) (name : String) (w : Hub) :
    (hub.getLabel r name w).2 = w := by
  simp only [hub, Hub.guard]
  cases w.fault (Call.getLabel r name) with
  | some msg => rfl
  | none =>
    simp only
    split <;> rfl

theorem hub_createLabel_state (r : RepoRef) (name : String) (color : Option String)
    (description : String) (w : Hub) :
    ∃ X, (hub.createLabel r name color description w).2 = { w with repoLabels := X } := by
  simp only [hub, Hub.guard]
  cases w.fault (Call.createLabel r name color description) with
  | some msg => exact ⟨w.repoLabels, rfl⟩
  | none =>
    simp only
    split
    · exact ⟨w.repoLabels, rfl⟩
    · exact ⟨_, rfl⟩

theorem hub_ensureLabel (r : RepoRef) (sizeLabel : String) (w : Hub) :
    ∃ X, (ensureLabel hub r sizeLabel w).2 = { w with repoLabels := X } := by
  have hg := hub_getLabel_state r sizeLabel w
  unfold ensureLabel
  split
  · rename_i u p1 heq
    rw [heq] at hg
    simp only at hg
    subst hg
    exact ⟨p1.repoLabels, rfl⟩
  · rename_i msg p1 heq
    rw [heq] at hg
    simp only at hg
    subst hg
    obtain ⟨X, hX⟩ := hub_createLabel_state r sizeLabel (labelColors.lookup sizeLabel)
      ("PR size: " ++ sizeLabel) p1
    simp only
    split
    · rename_i u p2 heq2
      rw [heq2] at hX
      exact ⟨X, hX⟩
    · rename_i m2 p2 heq2
      rw [heq2] at hX
      exact ⟨X, hX⟩

theorem afterFetch_plat {σ : Type} (P : Platform σ) (inp : Inputs) (r : RepoRef)
    (pr : PullRequest) (prData : PrData) (p : σ)
    (hA : (addedOf P inp r pr prData p).thrown = none) :
    (afterFetch P inp r pr prData p).plat = (commentedOf P inp r pr prData p).plat := by
  unfold afterFetch
  simp only
  rw [show addNewLabel P r pr.number (List.map (fun label => label.name) pr.labels)
      (sizeLabelOf (prData.additions + prData.deletions) inp.smallThreshold
        inp.mediumThreshold inp.largeThreshold)
      (removeLabels P r pr.number
        (labelsToRemove (List.map (fun label => label.name) pr.labels)
          (sizeLabelOf (prData.additions + prData.deletions) inp.smallThreshold
            inp.mediumThreshold inp.largeThreshold)) p).2 = addedOf P inp r pr prData p from rfl]
  rw [hA]
  simp only
  rw [show commentOnLargePr P r pr.number inp.commentOnLarge
      (sizeLabelOf (prData.additions + prData.deletions) inp.smallThreshold
        inp.mediumThreshold inp.largeThreshold)
      (prData.additions + prData.deletions) prData.additions prData.deletions
      inp.mediumThreshold (addedOf P inp r pr prData p).plat = commentedOf P inp r pr prData p
      from rfl]
  cases (commentedOf P inp r pr prData p).thrown <;> rfl

theorem includesChars_nil (s : List Char) : includesChars s [] = true := by
  cases s <;> simp [includesChars]

theorem includesChars_append (s t m : List Char) (h : includesChars s m = true) :
    includesChars (s ++ t) m = true := by
  induction s with
  | nil =>
    simp only [includesChars, List.isEmpty_eq_true] at h
    subst h
    exact includesChars_nil _
  | cons c cs ih =>
    simp only [includesChars, Bool.or_eq_true] at h
    simp only [List.cons_append, includesChars, Bool.or_eq_true]
    rcases h with h | h
    · left
      rw [List.isPrefixOf_iff_prefix] at h ⊢
      exact h.trans (List.prefix_append _ _)
    · exact Or.inr (ih h)

theorem includes_append (s t m : String) (h : includes s m = true) :
    includes (s ++ t) m = true := by
  unfold includes at *
  rw [String.data_append]
  exact includesChars_append _ _ _ h

theorem includes_commentBody (t a d : Int) (sizeLabel : String) (mediumThreshold : Option Int) :
    includes (commentBody t a d sizeLabel mediumThreshold) marker = true := by
  unfold commentBody
  repeat apply includes_append
  decide

theorem mem_kept (current : List String) (sizeLabel name : String) :
    name ∈ current.filter (fun l => !(labelsToRemove current sizeLabel).contains l) ↔
      name ∈ current ∧ ¬ (name ∈ sizeLabels ∧ name ≠ sizeLabel) := by
  have hc : ((labelsToRemove current sizeLabel).contains name = true) ↔
      name ∈ labelsToRemove current sizeLabel := by simp
  rw [List.mem_filter, Bool.not_eq_true', ← Bool.not_eq_true, hc, labelsToRemove_mem]
  tauto

theorem mem_convergedLabels (current : List String) (sizeLabel name : String) :
    name ∈ convergedLabels current current sizeLabel ↔
      (name ∈ current ∧ ¬ (name ∈ sizeLabels ∧ name ≠ sizeLabel)) ∨ name = sizeLabel := by
  unfold convergedLabels
  simp only
  by_cases h : current.contains sizeLabel = true
  · rw [if_pos h, mem_kept]
    have hmem : sizeLabel ∈ current := by simpa using h
    constructor
    · exact Or.inl
    · rintro (h1 | rfl)
      · exact h1
      · exact ⟨hmem, fun h2 => h2.2 rfl⟩
  · rw [if_neg h]
    have hmem : sizeLabel ∉ current := by simpa using h
    have hk : (current.filter
        (fun l => !(labelsToRemove current sizeLabel).contains l)).contains sizeLabel = false := by
      rw [← Bool.not_eq_true]
      intro hc
      have : sizeLabel ∈ current.filter
          (fun l => !(labelsToRemove current sizeLabel).contains l) := by simpa using hc
      exact hmem ((mem_kept _ _ _).1 this).1
    rw [List.mem_append, mem_kept]
    simp only [List.filter_cons, hk, Bool.not_false, if_true, List.filter_nil,
      List.mem_singleton]

/-- The remove-label calls of a run, in order. -/
theorem run_removeCalls {σ : Type} (P : Platform σ) (env : Env) (context : Context)
    (p p1 : σ) (inp : Inputs) (pr : PullRequest) (prData : PrData)
    (hin : readInputs env = Except.ok inp)
    (htok : inp.token ≠ "")
    (hpr : context.payload.pull_request = some pr)
    (hget : P.pullsGet context.repo pr.number p = (Except.ok prData, p1)) :
    (run P env context p).1.filterMap removeCall =
      (labelsToRemove (existingLabels pr) (tierOf inp prData)).map
        (Call.removeLabel context.repo pr.number) := by
  rw [run_events P env context p p1 inp pr prData hin htok hpr hget]
  simp only [List.filterMap_cons, List.filterMap_append, removeCall, headEvents_removeCall,
    rest_removeCall, catchTail_removeCall, List.append_nil, List.nil_append]
  unfold addedOf removedOf
  rw [added_removeCall, removeLabels_calls, List.append_nil]

theorem removeCall_of_isRemoveLabel (ev : Event) (h : isRemoveLabel ev = true) :
    ∃ c, removeCall ev = some c := by
  unfold isRemoveLabel at h
  split at h
  · exact ⟨_, rfl⟩
  · cases h

theorem labelsToRemove_converged (current : List String) (sizeLabel : String) :
    labelsToRemove (convergedLabels current current sizeLabel) sizeLabel = [] := by
  rw [List.eq_nil_iff_forall_not_mem]
  intro name hname
  rw [labelsToRemove_mem, mem_convergedLabels] at hname
  obtain ⟨h1 | h1, h2, h3⟩ := hname
  · exact h1.2 ⟨h2, h3⟩
  · exact h3 h1

theorem postsComment_after (w : Hub) (inp : Inputs) (hbot : w.actorType = "Bot") :
    postsComment inp (tierOf inp { additions := w.additions, deletions := w.deletions })
      (commentsAfter w inp) = false := by
  unfold commentsAfter
  simp only
  cases hp : postsComment inp (tierOf inp { additions := w.additions, deletions := w.deletions })
      w.comments with
  | false => simpa using hp
  | true =>
    simp only [if_true]
    unfold postsComment at hp ⊢
    simp only [Bool.and_eq_true] at hp
    have hnew : isBotComment
        { user := { type := w.actorType }
          body := commentBody (w.additions + w.deletions) w.additions w.deletions
            (tierOf inp { additions := w.additions, deletions := w.deletions })
            inp.mediumThreshold } = true := by
      simp [isBotComment, hbot, includes_commentBody]
    have hnone : w.comments.find? isBotComment = none := by
      simpa using hp.2
    rw [List.find?_append, hnone]
    simp [hnew]

theorem withLabels_pull_request (context : Context) (pr : PullRequest) (names : List String)
    (hpr : context.payload.pull_request = some pr) :
    (withLabels context names).payload.pull_request =
      some { pr with labels := names.map (fun name => { name := name }) } := by
  simp [withLabels, hpr]

theorem existingLabels_withLabels (pr : PullRequest) (names : List String) :
    existingLabels { pr with labels := names.map (fun name => ({ name := name } : Label)) } =
      names := by
  simp [existingLabels, List.map_map, Function.comp_def]

/-- When the label attachment did not throw, commenting is enabled and the
label is one of the two largest, the list-comments call is issued. -/
theorem list_issued_of_reached {σ : Type} (P : Platform σ) (env : Env) (context : Context)
    (p p1 : σ) (inp : Inputs) (pr : PullRequest) (prData : PrData)
    (hin : readInputs env = Except.ok inp)
    (htok : inp.token ≠ "")
    (hpr : context.payload.pull_request = some pr)
    (hget : P.pullsGet context.repo pr.number p = (Except.ok prData, p1))
    (hadd : ∀ ev ∈ (run P env context p).1, isAddLabels ev = true → isFatalThrow ev = false)
    (hflag : inp.commentOnLarge = true)
    (htier : tierOf inp prData = "large" ∨ tierOf inp prData = "extra-large") :
    ∃ reply, Event.call (Call.listComments context.repo pr.number) reply ∈
      (run P env context p).1 := by
  have hmem := mem_run_events P env context p p1 inp pr prData hin htok hpr hget
  have hA : (addedOf P inp context.repo pr prData p1).thrown = none := by
    cases hth : (addedOf P inp context.repo pr prData p1).thrown with
    | none => rfl
    | some msg =>
      have hin := added_thrown_fatal P context.repo pr.number (existingLabels pr)
        (tierOf inp prData) (removedOf P inp context.repo pr prData p1).2 msg hth
      have := hadd _ ((hmem _).2 (Or.inr (Or.inr (Or.inr (Or.inl hin))))) rfl
      simp [isFatalThrow, Call.isFatal] at this
  obtain ⟨reply, h⟩ := rest_list_issued P inp context.repo pr prData p1 hA hflag htier
  exact ⟨reply, (hmem _).2 (Or.inr (Or.inr (Or.inr (Or.inr (Or.inl h)))))⟩

theorem hub_removeLabel_cases (w : Hub) (r : RepoRef) (n : Nat) (name : String) :
    hub.removeLabel r n name w =
        (Except.ok (), { w with prLabels := w.prLabels.filter (fun l => l != name) }) ∨
      ∃ msg, hub.removeLabel r n name w = (Except.error msg, w) := by
  simp only [hub, Hub.guard]
  cases w.fault (Call.removeLabel r n name) with
  | some msg => exact Or.inr ⟨msg, rfl⟩
  | none =>
    simp only
    split
    · exact Or.inl rfl
    · exact Or.inr ⟨_, rfl⟩

theorem hub_removeLabels_ok (r : RepoRef) (n : Nat) (ls : List String) (w : Hub)
    (h : ∀ ev ∈ (removeLabels hub r n ls w).1, isRemoveThrow ev = false) :
    (removeLabels hub r n ls w).2 =
      { w with prLabels := w.prLabels.filter (fun l => !ls.contains l) } := by
  induction ls generalizing w with
  | nil => simp [removeLabels]
  | cons label rest ih =>
    unfold removeLabels at h ⊢
    rcases hub_removeLabel_cases w r n label with hstep | ⟨msg, hstep⟩
    · rw [hstep] at h ⊢
      simp only at h ⊢
      rw [ih { w with prLabels := w.prLabels.filter (fun l => l != label) }
        (fun ev hev => h ev (List.mem_cons_of_mem _ (List.mem_cons_of_mem _ hev)))]
      simp only [List.filter_filter, Hub.mk.injEq, true_and, and_true]
      apply List.filter_congr
      intro x _
      by_cases hx : x = label <;> simp [hx]
    · rw [hstep] at h
      simp only at h
      have := h _ (List.mem_cons_self _ _)
      simp [isRemoveThrow] at this

theorem hub_addNewLabel_ok (r : RepoRef) (n : Nat) (existing : List String)
    (sizeLabel : String) (w : Hub)
    (h : (addNewLabel hub r n existing sizeLabel w).thrown = none) :
    ∃ X, (addNewLabel hub r n existing sizeLabel w).plat =
      { w with
        prLabels :=
          if existing.contains sizeLabel then w.prLabels
          else w.prLabels ++ [sizeLabel].filter (fun l => !w.prLabels.contains l)
        repoLabels := X } := by
  unfold addNewLabel at h ⊢
  by_cases hc : existing.contains sizeLabel = true
  · rw [if_pos hc, if_pos hc]
    exact ⟨w.repoLabels, rfl⟩
  · rw [if_neg hc] at h ⊢
    rw [if_neg hc]
    obtain ⟨X, hX⟩ := hub_ensureLabel r sizeLabel w
    simp only [hX] at h ⊢
    simp only [hub, Hub.guard] at h ⊢
    cases hfa : w.fault (Call.addLabels r n [sizeLabel]) with
    | some msg => simp [hfa] at h
    | none => exact ⟨_, rfl⟩

theorem hub_commentOnLargePr_ok (r : RepoRef) (n : Nat) (inp : Inputs) (sizeLabel : String)
    (t a d : Int) (w : Hub)
    (h : (commentOnLargePr hub r n inp.commentOnLarge sizeLabel t a d inp.mediumThreshold
      w).thrown = none) :
    (commentOnLargePr hub r n inp.commentOnLarge sizeLabel t a d inp.mediumThreshold w).plat =
      { w with
        comments :=
          if postsComment inp sizeLabel w.comments then
            w.comments ++ [{ user := { type := w.actorType },
                             body := commentBody t a d sizeLabel inp.mediumThreshold }]
          else w.comments } ∧
    createCount
      (commentOnLargePr hub r n inp.commentOnLarge sizeLabel t a d inp.mediumThreshold w).events =
      (if postsComment inp sizeLabel w.comments then 1 else 0) ∧
    ((inp.commentOnLarge && (sizeLabel == "large" || sizeLabel == "extra-large")) = true →
      w.fault (Call.listComments r n) = none) := by
  unfold commentOnLargePr postsComment at *
  by_cases hw :
      (inp.commentOnLarge && (sizeLabel == "large" || sizeLabel == "extra-large")) = true
  · rw [if_pos hw] at h ⊢
    simp only [hub, Hub.guard, hw, Bool.true_and] at h ⊢
    cases hl : w.fault (Call.listComments r n) with
    | some msg => simp [hl] at h
    | none =>
      simp only [hl] at h ⊢
      cases hfind : w.comments.find? isBotComment with
      | none =>
        simp only [hfind] at h ⊢
        cases hc : w.fault (Call.createComment r n
            (commentBody t a d sizeLabel inp.mediumThreshold)) with
        | some msg => simp [hc] at h
        | none => simp [createCount, isCreateComment]
      | some c => simp [createCount, isCreateComment]
  · rw [if_neg hw]
    simp only [Bool.not_eq_true] at hw
    simp [hw, createCount]

theorem hub_commentOnLargePr_skip (r : RepoRef) (n : Nat) (inp : Inputs) (sizeLabel : String)
    (t a d : Int) (w : Hub)
    (hposts : postsComment inp sizeLabel w.comments = false)
    (hl : (inp.commentOnLarge && (sizeLabel == "large" || sizeLabel == "extra-large")) = true →
      w.fault (Call.listComments r n) = none) :
    (commentOnLargePr hub r n inp.commentOnLarge sizeLabel t a d inp.mediumThreshold w).thrown
      = none ∧
    createCount
      (commentOnLargePr hub r n inp.commentOnLarge sizeLabel t a d inp.mediumThreshold w).events
      = 0 := by
  unfold commentOnLargePr postsComment at *
  by_cases hw :
      (inp.commentOnLarge && (sizeLabel == "large" || sizeLabel == "extra-large")) = true
  · rw [if_pos hw]
    simp only [hub, Hub.guard, hl hw]
    cases hfind : w.comments.find? isBotComment with
    | none => simp [hw, hfind] at hposts
    | some c => simp [createCount, isCreateComment]
  · rw [if_neg hw]
    simp [createCount]

/-- What a run that reports no failure and whose removals all succeed leaves
on the reference platform, whatever calls are made to fail. -/
theorem hub_run_ok (env : Env) (context : Context) (w : Hub) (inp : Inputs) (pr : PullRequest)
    (hin : readInputs env = Except.ok inp)
    (htok : inp.token ≠ "")
    (hpr : context.payload.pull_request = some pr)
    (hdone : ∀ ev ∈ (run hub env context w).1, isSetFailed ev = false)
    (hrem : ∀ ev ∈ (run hub env context w).1, isRemoveThrow ev = false) :
    (∃ X, (run hub env context w).2 =
      { w with
        prLabels := convergedLabels (existingLabels pr) w.prLabels
          (tierOf inp { additions := w.additions, deletions := w.deletions })
        repoLabels := X
        comments := commentsAfter w inp }) ∧
    createCount (run hub env context w).1 =
      (if postsComment inp (tierOf inp { additions := w.additions, deletions := w.deletions })
        w.comments then 1 else 0) ∧
    (∃ pre, (run hub env context w).1 =
      pre ++ finish (tierOf inp { additions := w.additions, deletions := w.deletions })
        (w.additions + w.deletions)) ∧
    w.fault (Call.pullsGet context.repo pr.number) = none ∧
    ((inp.commentOnLarge &&
        (tierOf inp { additions := w.additions, deletions := w.deletions } == "large" ||
          tierOf inp { additions := w.additions, deletions := w.deletions } == "extra-large"))
        = true →
      w.fault (Call.listComments context.repo pr.number) = none) := by
  have hp : w.fault (Call.pullsGet context.repo pr.number) = none := by
    cases hfm : w.fault (Call.pullsGet context.repo pr.number) with
    | none => rfl
    | some msg =>
      have hoct : getOctokit inp.token = Except.ok () := by simp [getOctokit, htok]
      have hbad : (run hub env context w).1 =
          [Event.call (Call.pullsGet context.repo pr.number) (Reply.threw msg),
           Event.setFailed ("Action failed: " ++ msg)] := by
        simp [run, tryBlock, hin, hpr, hoct, hub, Hub.guard, hfm]
      have := hdone (Event.setFailed ("Action failed: " ++ msg)) (by rw [hbad]; simp)
      simp [isSetFailed] at this
  have hget : hub.pullsGet context.repo pr.number w =
      (Except.ok { additions := w.additions, deletions := w.deletions }, w) := by
    simp [hub, Hub.guard, hp]
  have hmem := mem_run_events hub env context w w inp pr _ hin htok hpr hget
  have hthrown : thrownOf hub inp context.repo pr
      { additions := w.additions, deletions := w.deletions } w = none := by
    cases hth : thrownOf hub inp context.repo pr
        { additions := w.additions, deletions := w.deletions } w with
    | none => rfl
    | some msg =>
      have := hdone (Event.setFailed ("Action failed: " ++ msg))
        ((hmem _).2 (Or.inr (Or.inr (Or.inr (Or.inr (Or.inr
          (by rw [hth]; simp [catchTail])))))))
      simp [isSetFailed] at this
  have hAt' : (addedOf hub inp context.repo pr
      { additions := w.additions, deletions := w.deletions } w).thrown = none := by
    unfold thrownOf at hthrown
    cases hA : (addedOf hub inp context.repo pr
        { additions := w.additions, deletions := w.deletions } w).thrown with
    | none => rfl
    | some msg => rw [hA] at hthrown; cases hthrown
  have hCt' : (commentedOf hub inp context.repo pr
      { additions := w.additions, deletions := w.deletions } w).thrown = none := by
    unfold thrownOf at hthrown
    rw [hAt'] at hthrown
    exact hthrown
  have hR := hub_removeLabels_ok context.repo pr.number
    (labelsToRemove (existingLabels pr)
      (tierOf inp { additions := w.additions, deletions := w.deletions })) w
    (fun ev hev => hrem ev ((hmem ev).2 (Or.inr (Or.inr (Or.inl hev)))))
  obtain ⟨X, hAp⟩ := hub_addNewLabel_ok context.repo pr.number (existingLabels pr)
    (tierOf inp { additions := w.additions, deletions := w.deletions })
    (removedOf hub inp context.repo pr { additions := w.additions, deletions := w.deletions }
      w).2 hAt'
  have hAp' : (addedOf hub inp context.repo pr
      { additions := w.additions, deletions := w.deletions } w).plat = _ := hAp
  obtain ⟨hCp, hCc, hCl⟩ := hub_commentOnLargePr_ok context.repo pr.number inp
    (tierOf inp { additions := w.additions, deletions := w.deletions })
    (w.additions + w.deletions) w.additions w.deletions
    (addedOf hub inp context.repo pr { additions := w.additions, deletions := w.deletions }
      w).plat hCt'
  have hrest : restEvents hub inp context.repo pr
      { additions := w.additions, deletions := w.deletions } w =
      (commentedOf hub inp context.repo pr
        { additions := w.additions, deletions := w.deletions } w).events ++
        finish (tierOf inp { additions := w.additions, deletions := w.deletions })
          (w.additions + w.deletions) := by
    unfold restEvents
    rw [hAt', hCt']
  refine ⟨⟨X, ?_⟩, ?_, ?_, hp, ?_⟩
  · rw [run_of_fetch hub env context w w inp pr _ hin htok hpr hget]
    simp only
    rw [afterFetch_plat hub inp context.repo pr _ w hAt']
    unfold commentedOf
    rw [hCp, hAp']
    unfold removedOf
    rw [hR]
    simp [convergedLabels, commentsAfter]
  · rw [createCount_run hub env context w w inp pr _ hin htok hpr hget, hrest]
    unfold commentedOf createCount at *
    rw [List.countP_append, hCc]
    rw [hAp']
    unfold removedOf
    rw [hR]
    simp [finish, isCreateComment]
  · rw [run_events hub env context w w inp pr _ hin htok hpr hget, hrest, hthrown]
    exact ⟨Event.call (Call.pullsGet context.repo pr.number)
        (Reply.pull { additions := w.additions, deletions := w.deletions }) ::
      (headEvents pr { additions := w.additions, deletions := w.deletions }
          (tierOf inp { additions := w.additions, deletions := w.deletions }) ++
        (removedOf hub inp context.repo pr
          { additions := w.additions, deletions := w.deletions } w).1 ++
        (addedOf hub inp context.repo pr
          { additions := w.additions, deletions := w.deletions } w).events ++
        (commentedOf hub inp context.repo pr
          { additions := w.additions, deletions := w.deletions } w).events),
      by simp [catchTail]⟩
  · intro hw
    have := hCl hw
    rw [hAp'] at this
    unfold removedOf at this
    rw [hR] at this
    exact this

/-- A run on the reference platform that finds nothing to do: the payload
lists the computed label and no stale one, and no comment is to be posted. -/
theorem hub_settled_run (env : Env) (context : Context) (w : Hub) (inp : Inputs)
    (pr : PullRequest)
    (hin : readInputs env = Except.ok inp)
    (htok : inp.token ≠ "")
    (hpr : context.payload.pull_request = some pr)
    (hp : w.fault (Call.pullsGet context.repo pr.number) = none)
    (hl : (inp.commentOnLarge &&
        (tierOf inp { additions := w.additions, deletions := w.deletions } == "large" ||
          tierOf inp { additions := w.additions, deletions := w.deletions } == "extra-large"))
        = true →
      w.fault (Call.listComments context.repo pr.number) = none)
    (hstale : labelsToRemove (existingLabels pr)
      (tierOf inp { additions := w.additions, deletions := w.deletions }) = [])
    (hhas : (existingLabels pr).contains
      (tierOf inp { additions := w.additions, deletions := w.deletions }) = true)
    (hposts : postsComment inp
      (tierOf inp { additions := w.additions, deletions := w.deletions }) w.comments = false) :
    (∃ pre, (run hub env context w).1 =
      pre ++ finish (tierOf inp { additions := w.additions, deletions := w.deletions })
        (w.additions + w.deletions)) ∧
    (∀ ev ∈ (run hub env context w).1,
      isRemoveLabel ev = false ∧ isAddLabels ev = false ∧ isCreateComment ev = false) ∧
    createCount (run hub env context w).1 = 0 := by
  have hget : hub.pullsGet context.repo pr.number w =
      (Except.ok { additions := w.additions, deletions := w.deletions }, w) := by
    simp [hub, Hub.guard, hp]
  have hRe : removedOf hub inp context.repo pr
      { additions := w.additions, deletions := w.deletions } w = ([], w) := by
    unfold removedOf
    rw [hstale]
    rfl
  have hA : addedOf hub inp context.repo pr
      { additions := w.additions, deletions := w.deletions } w =
      { events := [], thrown := none, plat := w } := by
    unfold addedOf addNewLabel
    rw [if_pos hhas, hRe]
  obtain ⟨hCt, hCc⟩ := hub_commentOnLargePr_skip context.repo pr.number inp
    (tierOf inp { additions := w.additions, deletions := w.deletions })
    (w.additions + w.deletions) w.additions w.deletions w hposts hl
  have hCt' : (commentedOf hub inp context.repo pr
      { additions := w.additions, deletions := w.deletions } w).thrown = none := by
    unfold commentedOf
    rw [hA]
    exact hCt
  have hCc' : createCount (commentedOf hub inp context.repo pr
      { additions := w.additions, deletions := w.deletions } w).events = 0 := by
    unfold commentedOf
    rw [hA]
    exact hCc
  have hrest : restEvents hub inp context.repo pr
      { additions := w.additions, deletions := w.deletions } w =
      (commentedOf hub inp context.repo pr
        { additions := w.additions, deletions := w.deletions } w).events ++
        finish (tierOf inp { additions := w.additions, deletions := w.deletions })
          (w.additions + w.deletions) := by
    unfold restEvents
    rw [hA, hCt']
  have hthrown : thrownOf hub inp context.repo pr
      { additions := w.additions, deletions := w.deletions } w = none := by
    unfold thrownOf
    rw [hA, hCt']
  have hcount : createCount (run hub env context w).1 = 0 := by
    rw [createCount_run hub env context w w inp pr _ hin htok hpr hget, hrest]
    unfold createCount at *
    rw [List.countP_append, hCc']
    simp [finish, isCreateComment]
  refine ⟨?_, ?_, hcount⟩
  · rw [run_events hub env context w w inp pr _ hin htok hpr hget, hrest, hthrown]
    exact ⟨Event.call (Call.pullsGet context.repo pr.number)
        (Reply.pull { additions := w.additions, deletions := w.deletions }) ::
      (headEvents pr { additions := w.additions, deletions := w.deletions }
          (tierOf inp { additions := w.additions, deletions := w.deletions }) ++
        (removedOf hub inp context.repo pr
          { additions := w.additions, deletions := w.deletions } w).1 ++
        (addedOf hub inp context.repo pr
          { additions := w.additions, deletions := w.deletions } w).events ++
        (commentedOf hub inp context.repo pr
          { additions := w.additions, deletions := w.deletions } w).events),
      by simp [catchTail]⟩
  · intro ev hev
    refine ⟨?_, ?_, ?_⟩
    · rw [← Bool.not_eq_true]
      intro hrm
      obtain ⟨c, hc⟩ := removeCall_of_isRemoveLabel ev hrm
      have hcalls := run_removeCalls hub env context w w inp pr _ hin htok hpr hget
      rw [hstale] at hcalls
      have : c ∈ (run hub env context w).1.filterMap removeCall :=
        List.mem_filterMap.2 ⟨ev, hev, hc⟩
      rw [hcalls] at this
      simp at this
    · rw [← Bool.not_eq_true]
      intro hadd
      unfold isAddLabels at hadd
      split at hadd
      · rename_i r n labels reply
        have hin2 := mem_added_of_mem_run hub env context w w inp pr _ hin htok hpr hget _ _
          (Or.inr (Or.inr ⟨_, _, _, rfl⟩)) hev
        rw [hA] at hin2
        simp at hin2
      · cases hadd
    · have := hcount
      unfold createCount at this
      rw [List.countP_eq_zero] at this
      simpa using this ev hev

/-- A run that read its inputs and found the pull request reports a failure
only after a call that threw. -/
theorem no_failure_of_no_throw {σ : Type} (P : Platform σ) (env : Env) (context : Context)
    (p : σ) (inp : Inputs) (pr : PullRequest)
    (hin : readInputs env = Except.ok inp)
    (htok : inp.token ≠ "")
    (hpr : context.payload.pull_request = some pr)
    (hnothrow : ∀ ev ∈ (run P env context p).1, isThrow ev = false) :
    ∀ ev ∈ (run P env context p).1, isSetFailed ev = false := by
  have hoct : getOctokit inp.token = Except.ok () := by simp [getOctokit, htok]
  rcases hget : P.pullsGet context.repo pr.number p with ⟨res, p1⟩
  cases res with
  | error msg =>
    have hbad : (run P env context p).1 =
        [Event.call (Call.pullsGet context.repo pr.number) (Reply.threw msg),
         Event.setFailed ("Action failed: " ++ msg)] := by
      simp [run, tryBlock, hin, hpr, hoct, hget]
    have := hnothrow (Event.call (Call.pullsGet context.repo pr.number) (Reply.threw msg))
      (by rw [hbad]; simp)
    simp [isThrow] at this
  | ok prData =>
    have hrun := run_of_fetch P env context p p1 inp pr prData hin htok hpr hget
    have hsh := afterFetch_shape P inp context.repo pr prData p1
    cases hthrown : (afterFetch P inp context.repo pr prData p1).thrown with
    | some msg =>
      rw [hthrown] at hsh
      obtain ⟨pre, c, hev, _, _⟩ := hsh
      have := hnothrow (Event.call c (Reply.threw msg)) (by rw [hrun, hev]; simp)
      simp [isThrow] at this
    | none =>
      rw [hthrown] at hsh
      obtain ⟨pre, hev, hpre⟩ := hsh
      intro ev hmem
      rw [hrun, hthrown, hev] at hmem
      simp only [catchTail, List.append_nil, List.mem_cons, List.mem_append] at hmem
      rcases hmem with rfl | h | h
      · rfl
      · exact isCalm_failed (hpre ev h)
      · simp [finish] at h
        rcases h with rfl | rfl | rfl <;> rfl

theorem isRemoveThrow_le_isThrow (ev : Event) (h : isThrow ev = false) :
    isRemoveThrow ev = false := by
  unfold isRemoveThrow
  split
  · simp [isThrow] at h
  · rfl

/-! ## The claims -/

/-- C1: for all integers `additions`, `deletions` and thresholds, the size label
`run` computes for `additions + deletions` is one of `small`, `medium`, `large`,
`extra-large`; it is `small` exactly when the total is at most the small
threshold, `medium` exactly when the total exceeds the small threshold and is
at most the medium one, `large` exactly when it exceeds both of those and is
at most the large one, and `extra-large` exactly when it exceeds all three.
The comparisons are inclusive: a total equal to a threshold gets the label of
the first comparison that holds.  With thresholds 50, 200, 500 the total
30 + 10 is `small` and 300 + 250 is `extra-large`. -/
theorem tier_classification
    (additions deletions smallThreshold mediumThreshold largeThreshold : Int) :
    (sizeLabelOf (additions + deletions) (some smallThreshold) (some mediumThreshold)
        (some largeThreshold) ∈ sizeLabels) ∧
    (sizeLabelOf (additions + deletions) (some smallThreshold) (some mediumThreshold)
        (some largeThreshold) = "small" ↔ additions + deletions ≤ smallThreshold) ∧
    (sizeLabelOf (additions + deletions) (some smallThreshold) (some mediumThreshold)
        (some largeThreshold) = "medium" ↔
      smallThreshold < additions + deletions ∧ additions + deletions ≤ mediumThreshold) ∧
    (sizeLabelOf (additions + deletions) (some smallThreshold) (some mediumThreshold)
        (some largeThreshold) = "large" ↔
      smallThreshold < additions + deletions ∧ mediumThreshold < additions + deletions ∧
        additions + deletions ≤ largeThreshold) ∧
    (sizeLabelOf (additions + deletions) (some smallThreshold) (some mediumThreshold)
        (some largeThreshold) = "extra-large" ↔
      smallThreshold < additions + deletions ∧ mediumThreshold < additions + deletions ∧
        largeThreshold < additions + deletions) ∧
    sizeLabelOf smallThreshold (some smallThreshold) (some mediumThreshold)
        (some largeThreshold) = "small" ∧
    sizeLabelOf mediumThreshold (some smallThreshold) (some mediumThreshold)
        (some largeThreshold) =
      (if mediumThreshold ≤ smallThreshold then "small" else "medium") ∧
    sizeLabelOf largeThreshold (some smallThreshold) (some mediumThreshold)
        (some largeThreshold) =
      (if largeThreshold ≤ smallThreshold then "small"
       else if largeThreshold ≤ mediumThreshold then "medium" else "large") ∧
    sizeLabelOf (30 + 10) (some 50) (some 200) (some 500) = "small" ∧
    sizeLabelOf (300 + 250) (some 50) (some 200) (some 500) = "extra-large" := by
  refine ⟨sizeLabelOf_mem _ _ _ _, ?_, ?_, ?_, ?_, ?_, ?_, ?_, by decide, by decide⟩
  · rw [sizeLabelOf_some]; split_ifs <;> simp <;> omega
  · rw [sizeLabelOf_some]; split_ifs <;> simp <;> omega
  · rw [sizeLabelOf_some]; split_ifs <;> simp <;> omega
  · rw [sizeLabelOf_some]; split_ifs <;> simp <;> omega
  · rw [sizeLabelOf_some]; simp
  · rw [sizeLabelOf_some]; simp
  · rw [sizeLabelOf_some]; simp

/-- C2: with the labels ordered small, medium, large, extra-large by `tierRank`,
a larger total of changed lines never gets a smaller label.  The statement
needs neither ascending thresholds nor non-negative counts: it holds for all
integers `a`, `d`, `a'`, `d'` with `a + d ≤ a' + d'` and all integer
thresholds, hence in particular under the assumptions of the claim. -/
theorem tier_monotone (a d a' d' s m l : Int) (h : a + d ≤ a' + d') :
    tierRank (sizeLabelOf (a + d) (some s) (some m) (some l)) ≤
      tierRank (sizeLabelOf (a' + d') (some s) (some m) (some l)) := by
  obtain ⟨h0, h1, h2, h3⟩ := tierRank_values
  rw [sizeLabelOf_some, sizeLabelOf_some]
  split_ifs <;> simp only [h0, h1, h2, h3] <;> omega

/-- C2 at thresholds 50, 200, 500 and the totals 30 + 10 and 300 + 250. -/
theorem tier_monotone_witness :
    (30 : Int) + 10 ≤ 300 + 250 ∧
    tierRank (sizeLabelOf (30 + 10) (some 50) (some 200) (some 500)) ≤
      tierRank (sizeLabelOf (300 + 250) (some 50) (some 200) (some 500)) :=
  ⟨by decide, tier_monotone 30 10 300 250 50 200 500 (by decide)⟩

/-- C3 (amended): on the reference platform, when the payload the run reads
lists the labels attached to the pull request, a run that reads its inputs,
finds the pull request and in which no platform call throws leaves exactly one
size label attached, the computed one: a name is attached and is a size label
if and only if it is the computed size label.  Labels that are not size labels
stay as they were.  This holds for every list of attached labels, with none,
one or several size labels. -/
theorem label_convergence (env : Env) (context : Context) (w : Hub) (inp : Inputs)
    (pr : PullRequest)
    (hin : readInputs env = Except.ok inp)
    (htok : inp.token ≠ "")
    (hpr : context.payload.pull_request = some pr)
    (hsnap : existingLabels pr = w.prLabels)
    (hnothrow : ∀ ev ∈ (run hub env context w).1, isThrow ev = false) :
    (∀ name, (name ∈ (run hub env context w).2.prLabels ∧ name ∈ sizeLabels) ↔
      name = tierOf inp { additions := w.additions, deletions := w.deletions }) ∧
    (∀ name, name ∉ sizeLabels →
      (name ∈ (run hub env context w).2.prLabels ↔ name ∈ w.prLabels)) := by
  obtain ⟨⟨X, hstate⟩, _, _⟩ := hub_run_ok env context w inp pr hin htok hpr
    (no_failure_of_no_throw hub env context w inp pr hin htok hpr hnothrow)
    (fun ev hev => isRemoveThrow_le_isThrow ev (hnothrow ev hev))
  rw [hstate, hsnap]
  simp only
  constructor
  · intro name
    rw [mem_convergedLabels]
    constructor
    · rintro ⟨h1 | h1, h2⟩
      · by_contra hne
        exact h1.2 ⟨h2, hne⟩
      · exact h1
    · rintro rfl
      exact ⟨Or.inr rfl, sizeLabelOf_mem _ _ _ _⟩
  · intro name hname
    rw [mem_convergedLabels]
    constructor
    · rintro (h1 | rfl)
      · exact h1.1
      · exact absurd (sizeLabelOf_mem _ _ _ _) hname
    · intro h
      exact Or.inl ⟨h, fun h2 => hname h2.1⟩

/-- C3 (amended) for a pull request labelled small, bug and medium with 550
changed lines, extra-large being registered: no call throws, extra-large is
attached afterwards and small is not. -/
theorem label_convergence_witness :
    readInputs (sampleEnv "t" "50" "200" "500" "false") = Except.ok (sampleInputs false) ∧
    existingLabels { number := 7, labels := [{ name := "small" }, { name := "bug" },
      { name := "medium" }] } =
      (registeredHub 300 250 ["small", "bug", "medium"] ["extra-large"] "Bot").prLabels ∧
    List.any (run hub (sampleEnv "t" "50" "200" "500" "false")
        (sampleContext ["small", "bug", "medium"])
        (registeredHub 300 250 ["small", "bug", "medium"] ["extra-large"] "Bot")).1
      isThrow = false ∧
    ("extra-large" ∈ (run hub (sampleEnv "t" "50" "200" "500" "false")
        (sampleContext ["small", "bug", "medium"])
        (registeredHub 300 250 ["small", "bug", "medium"] ["extra-large"] "Bot")).2.prLabels ∧
      "extra-large" ∈ sizeLabels) ∧
    ¬ ("small" ∈ (run hub (sampleEnv "t" "50" "200" "500" "false")
        (sampleContext ["small", "bug", "medium"])
        (registeredHub 300 250 ["small", "bug", "medium"] ["extra-large"] "Bot")).2.prLabels ∧
      "small" ∈ sizeLabels) := by
  have h := label_convergence (sampleEnv "t" "50" "200" "500" "false")
    (sampleContext ["small", "bug", "medium"])
    (registeredHub 300 250 ["small", "bug", "medium"] ["extra-large"] "Bot")
    (sampleInputs false)
    { number := 7, labels := [{ name := "small" }, { name := "bug" }, { name := "medium" }] }
    rfl (by decide) rfl rfl (by decide)
  refine ⟨rfl, rfl, by decide, (h.1 "extra-large").2 (by decide), fun hc => ?_⟩
  have := (h.1 "small").1 hc
  revert this
  decide

/-- C3, counterexample: the payload lists no label while small is attached to
the pull request and extra-large is registered; with 550 changed lines no call
of the run throws, the computed label is extra-large, and the pull request
ends with small and extra-large attached. -/
theorem stale_payload_keeps_label :
    existingLabels { number := 7, labels := [] } = [] ∧
    (registeredHub 300 250 ["small"] ["extra-large"] "Bot").prLabels = ["small"] ∧
    List.any
      (run hub (sampleEnv "t" "50" "200" "500" "false") (sampleContext [])
        (registeredHub 300 250 ["small"] ["extra-large"] "Bot")).1 isThrow = false ∧
    Event.setOutput "size-label" (OutVal.str "extra-large") ∈
      (run hub (sampleEnv "t" "50" "200" "500" "false") (sampleContext [])
        (registeredHub 300 250 ["small"] ["extra-large"] "Bot")).1 ∧
    (run hub (sampleEnv "t" "50" "200" "500" "false") (sampleContext [])
      (registeredHub 300 250 ["small"] ["extra-large"] "Bot")).2.prLabels =
      ["small", "extra-large"] ∧
    "small" ∈ sizeLabels := by
  decide

/-- C4 (amended): on the reference platform, whatever calls are made to fail,
when the payload of the first run lists the labels attached to the pull
request, the first run reports no failure and none of its remove-label calls
throws, the token acts as an account of type `Bot`, and the second run sees
the labels and comments the first run left, both runs end with the same
outputs, the second run issues no remove-label call, no add-labels call and no
create-comment call, and the two runs together issue at most one
create-comment call. -/
theorem second_run_idempotent (env : Env) (context : Context) (w : Hub) (inp : Inputs)
    (pr : PullRequest)
    (hin : readInputs env = Except.ok inp)
    (htok : inp.token ≠ "")
    (hpr : context.payload.pull_request = some pr)
    (hsnap : existingLabels pr = w.prLabels)
    (hbot : w.actorType = "Bot")
    (hdone : ∀ ev ∈ (run hub env context w).1, isSetFailed ev = false)
    (hrem : ∀ ev ∈ (run hub env context w).1, isRemoveThrow ev = false) :
    (∃ pre1 pre2,
      (run hub env context w).1 =
        pre1 ++ finish (tierOf inp { additions := w.additions, deletions := w.deletions })
          (w.additions + w.deletions) ∧
      (run hub env (withLabels context (run hub env context w).2.prLabels)
        (run hub env context w).2).1 =
        pre2 ++ finish (tierOf inp { additions := w.additions, deletions := w.deletions })
          (w.additions + w.deletions)) ∧
    (∀ ev ∈ (run hub env (withLabels context (run hub env context w).2.prLabels)
        (run hub env context w).2).1,
      isRemoveLabel ev = false ∧ isAddLabels ev = false ∧ isCreateComment ev = false) ∧
    createCount ((run hub env context w).1 ++
      (run hub env (withLabels context (run hub env context w).2.prLabels)
        (run hub env context w).2).1) ≤ 1 := by
  obtain ⟨⟨X, hstate⟩, hcount1, ⟨pre1, hev1⟩, hp, hl⟩ :=
    hub_run_ok env context w inp pr hin htok hpr hdone hrem
  rw [hsnap] at hstate
  generalize hw1 : (run hub env context w).2 = w1 at *
  have hfault : w1.fault = w.fault := by rw [hstate]
  have hadd : w1.additions = w.additions := by rw [hstate]
  have hdel : w1.deletions = w.deletions := by rw [hstate]
  have hlab : w1.prLabels = convergedLabels w.prLabels w.prLabels
      (tierOf inp { additions := w.additions, deletions := w.deletions }) := by rw [hstate]
  have hcom : w1.comments = commentsAfter w inp := by rw [hstate]
  have hpr2 := withLabels_pull_request context pr w1.prLabels hpr
  have hex2 := existingLabels_withLabels pr w1.prLabels
  have htier : tierOf inp { additions := w.additions, deletions := w.deletions } ∈
      convergedLabels w.prLabels w.prLabels
        (tierOf inp { additions := w.additions, deletions := w.deletions }) :=
    (mem_convergedLabels _ _ _).2 (Or.inr rfl)
  obtain ⟨⟨pre2, hev2⟩, hnone, hcount2⟩ :=
    hub_settled_run env (withLabels context w1.prLabels) w1 inp _ hin htok hpr2
      (by rw [hfault]; exact hp)
      (by rw [hfault, hadd, hdel]; exact hl)
      (by rw [hex2, hadd, hdel, hlab]; exact labelsToRemove_converged _ _)
      (by rw [hex2, hadd, hdel, hlab]; simpa using htier)
      (by rw [hadd, hdel, hcom]; exact postsComment_after w inp hbot)
  rw [hadd, hdel] at hev2
  refine ⟨⟨pre1, pre2, hev1, hev2⟩, hnone, ?_⟩
  unfold createCount at *
  rw [List.countP_append, hcount2, hcount1]
  split <;> simp

/-- C4 (amended) for a pull request labelled small with 550 changed lines and
commenting enabled, the label extra-large not yet registered: the first run
reports no failure, its removal succeeds, it posts the comment, and both runs
together post one. -/
theorem second_run_idempotent_witness :
    existingLabels { number := 7, labels := [{ name := "small" }] } =
      (sampleHub 300 250 ["small"] "Bot").prLabels ∧
    (sampleHub 300 250 ["small"] "Bot").actorType = "Bot" ∧
    List.any (run hub (sampleEnv "t" "50" "200" "500" "true") (sampleContext ["small"])
      (sampleHub 300 250 ["small"] "Bot")).1 isSetFailed = false ∧
    List.any (run hub (sampleEnv "t" "50" "200" "500" "true") (sampleContext ["small"])
      (sampleHub 300 250 ["small"] "Bot")).1 isRemoveThrow = false ∧
    createCount
      ((run hub (sampleEnv "t" "50" "200" "500" "true") (sampleContext ["small"])
          (sampleHub 300 250 ["small"] "Bot")).1 ++
        (run hub (sampleEnv "t" "50" "200" "500" "true")
          (withLabels (sampleContext ["small"])
            (run hub (sampleEnv "t" "50" "200" "500" "true") (sampleContext ["small"])
              (sampleHub 300 250 ["small"] "Bot")).2.prLabels)
          (run hub (sampleEnv "t" "50" "200" "500" "true") (sampleContext ["small"])
            (sampleHub 300 250 ["small"] "Bot")).2).1) ≤ 1 ∧
    createCount (run hub (sampleEnv "t" "50" "200" "500" "true") (sampleContext ["small"])
      (sampleHub 300 250 ["small"] "Bot")).1 = 1 :=
  ⟨rfl, rfl, by decide, by decide,
    (second_run_idempotent (sampleEnv "t" "50" "200" "500" "true") (sampleContext ["small"])
      (sampleHub 300 250 ["small"] "Bot") (sampleInputs true)
      { number := 7, labels := [{ name := "small" }] }
      rfl (by decide) rfl rfl rfl (by decide) (by decide)).2.2,
    by decide⟩

/-- C4, counterexample, in four parts.  When the token acts as an account of
type `User`, the comment of the first run is not recognised by the second run,
which posts a second one (two create-comment calls in all).  When the
remove-label call of the first run throws, the first run still reports no
failure, the stale label stays attached and the second run issues a
remove-label call.  When the payload of the first run lists no label while
small is attached, no call of the first run throws and it reports no failure,
small stays attached and the second run issues a remove-label call.  When the
add-labels call of the first run throws, the first run reports failure and the
second run issues an add-labels call. -/
theorem second_run_comments_again :
    (createCount
      (run hub (sampleEnv "t" "50" "200" "500" "true")
        (withLabels (sampleContext [])
          (run hub (sampleEnv "t" "50" "200" "500" "true") (sampleContext [])
            (sampleHub 300 250 [] "User")).2.prLabels)
        (run hub (sampleEnv "t" "50" "200" "500" "true") (sampleContext [])
          (sampleHub 300 250 [] "User")).2).1 = 1 ∧
     createCount
      ((run hub (sampleEnv "t" "50" "200" "500" "true") (sampleContext [])
          (sampleHub 300 250 [] "User")).1 ++
        (run hub (sampleEnv "t" "50" "200" "500" "true")
          (withLabels (sampleContext [])
            (run hub (sampleEnv "t" "50" "200" "500" "true") (sampleContext [])
              (sampleHub 300 250 [] "User")).2.prLabels)
          (run hub (sampleEnv "t" "50" "200" "500" "true") (sampleContext [])
            (sampleHub 300 250 [] "User")).2).1) = 2) ∧
    (List.any
      (run hub (sampleEnv "t" "50" "200" "500" "false") (sampleContext ["small"])
        (faultyHub 300 250 ["small"] "Bot" (Call.removeLabel sampleRepo 7 "small")
          "Forbidden")).1 isSetFailed = false ∧
     List.any
      (run hub (sampleEnv "t" "50" "200" "500" "false")
        (withLabels (sampleContext ["small"])
          (run hub (sampleEnv "t" "50" "200" "500" "false") (sampleContext ["small"])
            (faultyHub 300 250 ["small"] "Bot" (Call.removeLabel sampleRepo 7 "small")
              "Forbidden")).2.prLabels)
        (run hub (sampleEnv "t" "50" "200" "500" "false") (sampleContext ["small"])
          (faultyHub 300 250 ["small"] "Bot" (Call.removeLabel sampleRepo 7 "small")
            "Forbidden")).2).1 isRemoveLabel = true) ∧
    (List.any
      (run hub (sampleEnv "t" "50" "200" "500" "false") (sampleContext [])
        (registeredHub 300 250 ["small"] ["extra-large"] "Bot")).1 isThrow = false ∧
     List.any
      (run hub (sampleEnv "t" "50" "200" "500" "false") (sampleContext [])
        (registeredHub 300 250 ["small"] ["extra-large"] "Bot")).1 isSetFailed = false ∧
     List.any
      (run hub (sampleEnv "t" "50" "200" "500" "false")
        (withLabels (sampleContext [])
          (run hub (sampleEnv "t" "50" "200" "500" "false") (sampleContext [])
            (registeredHub 300 250 ["small"] ["extra-large"] "Bot")).2.prLabels)
        (run hub (sampleEnv "t" "50" "200" "500" "false") (sampleContext [])
          (registeredHub 300 250 ["small"] ["extra-large"] "Bot")).2).1 isRemoveLabel = true) ∧
    (List.any
      (run hub (sampleEnv "t" "50" "200" "500" "false") (sampleContext [])
        (faultyHub 300 250 [] "Bot" (Call.addLabels sampleRepo 7 ["extra-large"])
          "Forbidden")).1 isSetFailed = true ∧
     List.any
      (run hub (sampleEnv "t" "50" "200" "500" "false")
        (withLabels (sampleContext [])
          (run hub (sampleEnv "t" "50" "200" "500" "false") (sampleContext [])
            (faultyHub 300 250 [] "Bot" (Call.addLabels sampleRepo 7 ["extra-large"])
              "Forbidden")).2.prLabels)
        (run hub (sampleEnv "t" "50" "200" "500" "false") (sampleContext [])
          (faultyHub 300 250 [] "Bot" (Call.addLabels sampleRepo 7 ["extra-large"])
            "Forbidden")).2).1 isAddLabels = true) := by
  decide

/-- C5: in a run that fetched the pull request, at most one create-comment call
is issued.  A list-comments call is issued only when `comment-on-large` is
enabled and the size label is `large` or `extra-large`.  A create-comment call
is issued only when, in addition, the comments were listed and none of them has
author type `Bot` and a body containing the marker; its body is `commentBody`.
When the listing returned comments with no such comment, exactly one
create-comment call is issued; when it returned such a comment, or threw, none
is.  When the label attachment did not throw, commenting is enabled and the
label is `large` or `extra-large`, the list-comments call is issued. -/
theorem advisory_comment_decision {σ : Type} (P : Platform σ) (env : Env) (context : Context)
    (p p1 : σ) (inp : Inputs) (pr : PullRequest) (prData : PrData)
    (hin : readInputs env = Except.ok inp)
    (htok : inp.token ≠ "")
    (hpr : context.payload.pull_request = some pr)
    (hget : P.pullsGet context.repo pr.number p = (Except.ok prData, p1)) :
    createCount (run P env context p).1 ≤ 1 ∧
    (∀ ev ∈ (run P env context p).1, isListComments ev = true →
      (∃ reply, ev = Event.call (Call.listComments context.repo pr.number) reply) ∧
      inp.commentOnLarge = true ∧
      (tierOf inp prData = "large" ∨ tierOf inp prData = "extra-large")) ∧
    (∀ ev ∈ (run P env context p).1, isCreateComment ev = true →
      (∃ reply, ev = Event.call (Call.createComment context.repo pr.number
        (commentBody (prData.additions + prData.deletions) prData.additions prData.deletions
          (tierOf inp prData) inp.mediumThreshold)) reply) ∧
      inp.commentOnLarge = true ∧
      (tierOf inp prData = "large" ∨ tierOf inp prData = "extra-large") ∧
      ∃ cs, Event.call (Call.listComments context.repo pr.number) (Reply.comments cs) ∈
          (run P env context p).1 ∧
        ∀ c ∈ cs, ¬ (c.user.type = "Bot" ∧ includes c.body marker = true)) ∧
    (∀ r n cs, Event.call (Call.listComments r n) (Reply.comments cs) ∈ (run P env context p).1 →
      (∀ c ∈ cs, ¬ (c.user.type = "Bot" ∧ includes c.body marker = true)) →
      createCount (run P env context p).1 = 1) ∧
    (∀ r n cs, Event.call (Call.listComments r n) (Reply.comments cs) ∈ (run P env context p).1 →
      (∃ c ∈ cs, c.user.type = "Bot" ∧ includes c.body marker = true) →
      createCount (run P env context p).1 = 0) ∧
    (∀ r n msg, Event.call (Call.listComments r n) (Reply.threw msg) ∈ (run P env context p).1 →
      createCount (run P env context p).1 = 0) ∧
    ((∀ ev ∈ (run P env context p).1, isAddLabels ev = true → isFatalThrow ev = false) →
      inp.commentOnLarge = true →
      (tierOf inp prData = "large" ∨ tierOf inp prData = "extra-large") →
      ∃ reply, Event.call (Call.listComments context.repo pr.number) reply ∈
        (run P env context p).1) := by
  have hmem := mem_run_events P env context p p1 inp pr prData hin htok hpr hget
  have hcount := createCount_run P env context p p1 inp pr prData hin htok hpr hget
  have hrest := fun ev hc h =>
    mem_rest_of_mem_run P env context p p1 inp pr prData hin htok hpr hget ev hc h
  have hback : ∀ ev, ev ∈ restEvents P inp context.repo pr prData p1 →
      ev ∈ (run P env context p).1 :=
    fun ev h => (hmem ev).2 (Or.inr (Or.inr (Or.inr (Or.inr (Or.inl h)))))
  rw [hcount]
  refine ⟨rest_count_le _ _ _ _ _ _, ?_, ?_, ?_, ?_, ?_, ?_⟩
  · intro ev hev hl
    exact rest_list_calls P inp context.repo pr prData p1 ev (hrest ev (Or.inl hl) hev) hl
  · intro ev hev hl
    obtain ⟨h1, h2, h3, cs, h4, h5⟩ :=
      rest_create_calls P inp context.repo pr prData p1 ev (hrest ev (Or.inr hl) hev) hl
    exact ⟨h1, h2, h3, cs, hback _ h4, (find_bot_none cs).1 h5⟩
  · intro r n cs h hno
    exact (rest_count_of_list P inp context.repo pr prData p1 r n cs
      (hrest _ (Or.inl rfl) h)).1 ((find_bot_none cs).2 hno)
  · intro r n cs h hex
    cases hf : cs.find? isBotComment with
    | none =>
      obtain ⟨c, hc, hbot⟩ := hex
      exact absurd hbot ((find_bot_none cs).1 hf c hc)
    | some c =>
      exact (rest_count_of_list P inp context.repo pr prData p1 r n cs
        (hrest _ (Or.inl rfl) h)).2 c hf
  · intro r n msg h
    exact rest_count_of_list_threw P inp context.repo pr prData p1 r n msg
      (hrest _ (Or.inl rfl) h)
  · intro hadd hflag htier
    exact list_issued_of_reached P env context p p1 inp pr prData hin htok hpr hget hadd
      hflag htier

set_option maxRecDepth 8192 in
/-- C5 at thresholds 50, 200, 500, 300 additions, 250 deletions, commenting
enabled and no earlier comment: one comment is created and its body mentions
550 and 200. -/
theorem advisory_comment_decision_witness :
    readInputs (sampleEnv "t" "50" "200" "500" "true") = Except.ok (sampleInputs true) ∧
    tierOf (sampleInputs true) { additions := 300, deletions := 250 } = "extra-large" ∧
    createCount (run hub (sampleEnv "t" "50" "200" "500" "true") (sampleContext [])
      (sampleHub 300 250 [] "Bot")).1 = 1 ∧
    Event.call (Call.createComment sampleRepo 7
        (commentBody 550 300 250 "extra-large" (some 200))) Reply.done ∈
      (run hub (sampleEnv "t" "50" "200" "500" "true") (sampleContext [])
        (sampleHub 300 250 [] "Bot")).1 ∧
    includes (commentBody 550 300 250 "extra-large" (some 200)) "550" = true ∧
    includes (commentBody 550 300 250 "extra-large" (some 200)) "200" = true := by
  have h := advisory_comment_decision hub (sampleEnv "t" "50" "200" "500" "true")
    (sampleContext []) (sampleHub 300 250 [] "Bot") (sampleHub 300 250 [] "Bot")
    (sampleInputs true) { number := 7, labels := [] } { additions := 300, deletions := 250 }
    rfl (by decide) rfl rfl
  refine ⟨rfl, by decide, ?_, by decide, by decide, by decide⟩
  exact h.2.2.2.1 sampleRepo 7 [] (by decide) (by simp)

/-- C6 (amended): when the payload has no pull request, `run` emits one event, a
failure report, touches the platform with no call and sets no output; the
message is `This action can only be run on pull_request events` when the
token input is supplied, and the message of the required-input error, which
is raised first, when it is not. -/
theorem missing_pull_request {σ : Type} (P : Platform σ) (env : Env) (context : Context)
    (p : σ) (hpr : context.payload.pull_request = none) :
    run P env context p =
      ([Event.setFailed
          (if env "github-token" = "" then
            "Action failed: Input required and not supplied: github-token"
          else "This action can only be run on pull_request events")], p) := by
  unfold run tryBlock
  rw [readInputs_eq]
  by_cases h : env "github-token" = "" <;> simp [h, hpr]

/-- C6 (amended) with a token supplied. -/
theorem missing_pull_request_witness :
    ({ payload := { pull_request := none }, repo := { owner := "octo", repo := "demo" } } :
      Context).payload.pull_request = none ∧
    (run hub (sampleEnv "t" "50" "200" "500" "true")
      { payload := { pull_request := none }, repo := { owner := "octo", repo := "demo" } }
      (sampleHub 300 250 [] "Bot")).1 =
      [Event.setFailed "This action can only be run on pull_request events"] := by
  refine ⟨rfl, ?_⟩
  rw [missing_pull_request hub (sampleEnv "t" "50" "200" "500" "true")
    { payload := { pull_request := none }, repo := { owner := "octo", repo := "demo" } }
    (sampleHub 300 250 [] "Bot") rfl]
  decide

/-- C6, counterexample: with no token supplied and no pull request in the
payload, the failure reported is the missing input, not the missing pull request. -/
theorem missing_token_reported_first :
    (run hub (sampleEnv "" "50" "200" "500" "true")
      { payload := { pull_request := none }, repo := { owner := "octo", repo := "demo" } }
      (sampleHub 300 250 [] "Bot")).1 =
      [Event.setFailed "Action failed: Input required and not supplied: github-token"] ∧
    Event.setFailed "This action can only be run on pull_request events" ∉
      (run hub (sampleEnv "" "50" "200" "500" "true")
        { payload := { pull_request := none }, repo := { owner := "octo", repo := "demo" } }
        (sampleHub 300 250 [] "Bot")).1 := by
  decide

/-- C7: when the get-pull-request, add-labels, list-comments or create-comment
call of a run throws with message `e`, that call is the last platform call of
the run and is followed only by the failure report `Action failed: e`; no
earlier call of these kinds threw, nothing was reported as failed before, and
no output is set. -/
theorem fatal_error_stops_run {σ : Type} (P : Platform σ) (env : Env) (context : Context)
    (p : σ) (c : Call) (e : String) (hc : c.isFatal = true)
    (hmem : Event.call c (Reply.threw e) ∈ (run P env context p).1) :
    (∃ pre, (run P env context p).1 =
        pre ++ [Event.call c (Reply.threw e), Event.setFailed ("Action failed: " ++ e)] ∧
      ∀ ev ∈ pre, isFatalThrow ev = false ∧ isSetFailed ev = false) ∧
    ∀ ev ∈ (run P env context p).1, isSetOutput ev = false := by
  have hfatal : isFatalThrow (Event.call c (Reply.threw e)) = true := by
    simpa [isFatalThrow] using hc
  rcases run_cases P env context p with ⟨msg, hrun⟩ |
      ⟨inp, pr, msg, p1, _, _, _, _, hrun⟩ | ⟨inp, pr, prData, p1, _, _, _, _, hrun⟩
  · rw [hrun] at hmem; simp at hmem
  · rw [hrun] at hmem ⊢
    simp at hmem
    obtain ⟨rfl, rfl⟩ := hmem
    exact ⟨⟨[], rfl, by simp⟩, by simp [isSetOutput]⟩
  · rw [hrun] at hmem ⊢
    have hsh := afterFetch_shape P inp context.repo pr prData p1
    cases hthrown : (afterFetch P inp context.repo pr prData p1).thrown with
    | none =>
      rw [hthrown] at hsh hmem
      obtain ⟨pre, hev, hpre⟩ := hsh
      simp only [catchTail, List.append_nil, List.mem_cons, hev, List.mem_append] at hmem
      rcases hmem with h | h | h
      · simp at h
      · have := isCalm_fatal (hpre _ h)
        rw [hfatal] at this; cases this
      · simp [finish] at h
    | some msg =>
      rw [hthrown] at hsh hmem
      obtain ⟨pre, c', hev, hc', hpre⟩ := hsh
      simp only [catchTail, List.mem_cons, hev, List.mem_append] at hmem
      have hce : c = c' ∧ e = msg := by
        rcases hmem with h | (h | h) | h
        · simp at h
        · have := isCalm_fatal (hpre _ h)
          rw [hfatal] at this; cases this
        · simpa using h
        · simp at h
      obtain ⟨rfl, rfl⟩ := hce
      simp only [hev, catchTail]
      refine ⟨⟨Event.call (Call.pullsGet context.repo pr.number) (Reply.pull prData) :: pre,
        by simp, ?_⟩, ?_⟩
      · intro ev hev
        rcases List.mem_cons.1 hev with rfl | h
        · exact ⟨rfl, rfl⟩
        · exact ⟨isCalm_fatal (hpre _ h), isCalm_failed (hpre _ h)⟩
      · intro ev hev
        simp only [List.mem_cons, List.mem_append] at hev
        rcases hev with rfl | (h | h) | h
        · rfl
        · exact isCalm_output (hpre _ h)
        · simp at h; subst h; rfl
        · simp at h; subst h; rfl

/-- C7 for a run whose add-labels call is refused. -/
theorem fatal_error_stops_run_witness :
    (Call.addLabels sampleRepo 7 ["extra-large"]).isFatal = true ∧
    Event.call (Call.addLabels sampleRepo 7 ["extra-large"]) (Reply.threw "Forbidden") ∈
      (run hub (sampleEnv "t" "50" "200" "500" "true") (sampleContext [])
        (faultyHub 300 250 [] "Bot" (Call.addLabels sampleRepo 7 ["extra-large"])
          "Forbidden")).1 ∧
    Event.setFailed "Action failed: Forbidden" ∈
      (run hub (sampleEnv "t" "50" "200" "500" "true") (sampleContext [])
        (faultyHub 300 250 [] "Bot" (Call.addLabels sampleRepo 7 ["extra-large"])
          "Forbidden")).1 ∧
    List.all
      (run hub (sampleEnv "t" "50" "200" "500" "true") (sampleContext [])
        (faultyHub 300 250 [] "Bot" (Call.addLabels sampleRepo 7 ["extra-large"])
          "Forbidden")).1 (fun ev => !isSetOutput ev) = true := by
  have hmem : Event.call (Call.addLabels sampleRepo 7 ["extra-large"])
      (Reply.threw "Forbidden") ∈
      (run hub (sampleEnv "t" "50" "200" "500" "true") (sampleContext [])
        (faultyHub 300 250 [] "Bot" (Call.addLabels sampleRepo 7 ["extra-large"])
          "Forbidden")).1 := by decide
  have h := fatal_error_stops_run hub (sampleEnv "t" "50" "200" "500" "true")
    (sampleContext [])
    (faultyHub 300 250 [] "Bot" (Call.addLabels sampleRepo 7 ["extra-large"]) "Forbidden")
    (Call.addLabels sampleRepo 7 ["extra-large"]) "Forbidden" rfl hmem
  refine ⟨rfl, hmem, ?_, ?_⟩
  · obtain ⟨pre, hpre, _⟩ := h.1
    rw [hpre]
    simp
  · rw [List.all_eq_true]
    intro ev hev
    simp [h.2 ev hev]

/-- C8: in a run that fetched the pull request, whatever the platform answers,
the remove-label calls are, in order, one for each label of the payload that
is a size label other than the computed one, and no other; a remove-label call
that throws is followed at once by a warning with the label name and the
message; the add-labels call is still issued when the payload does not list the
computed label; the list-comments call is still issued when the attachment
did not throw, commenting is enabled and the label is one of the two largest;
and when no call of the fatal kind throws the run ends with the outputs. -/
theorem removal_failures_isolated {σ : Type} (P : Platform σ) (env : Env) (context : Context)
    (p p1 : σ) (inp : Inputs) (pr : PullRequest) (prData : PrData)
    (hin : readInputs env = Except.ok inp)
    (htok : inp.token ≠ "")
    (hpr : context.payload.pull_request = some pr)
    (hget : P.pullsGet context.repo pr.number p = (Except.ok prData, p1)) :
    ((run P env context p).1.filterMap removeCall =
      (labelsToRemove (existingLabels pr) (tierOf inp prData)).map
        (Call.removeLabel context.repo pr.number)) ∧
    (∀ name, name ∈ labelsToRemove (existingLabels pr) (tierOf inp prData) ↔
      name ∈ existingLabels pr ∧ name ∈ sizeLabels ∧ name ≠ tierOf inp prData) ∧
    (∀ r n name msg,
      Event.call (Call.removeLabel r n name) (Reply.threw msg) ∈ (run P env context p).1 →
      ∃ pre post, (run P env context p).1 =
        pre ++ Event.call (Call.removeLabel r n name) (Reply.threw msg) ::
          Event.warning ("Failed to remove label " ++ name ++ ": " ++ msg) :: post) ∧
    ((existingLabels pr).contains (tierOf inp prData) = false →
      ∃ reply, Event.call (Call.addLabels context.repo pr.number [tierOf inp prData]) reply ∈
        (run P env context p).1) ∧
    ((∀ ev ∈ (run P env context p).1, isAddLabels ev = true → isFatalThrow ev = false) →
      inp.commentOnLarge = true →
      (tierOf inp prData = "large" ∨ tierOf inp prData = "extra-large") →
      ∃ reply, Event.call (Call.listComments context.repo pr.number) reply ∈
        (run P env context p).1) ∧
    ((∀ ev ∈ (run P env context p).1, isFatalThrow ev = false) →
      ∃ pre, (run P env context p).1 =
        pre ++ finish (tierOf inp prData) (prData.additions + prData.deletions)) := by
  have hev := run_events P env context p p1 inp pr prData hin htok hpr hget
  refine ⟨run_removeCalls P env context p p1 inp pr prData hin htok hpr hget,
    labelsToRemove_mem _ _, ?_, ?_,
    list_issued_of_reached P env context p p1 inp pr prData hin htok hpr hget,
    run_completes P env context p p1 inp pr prData hin htok hpr hget⟩
  · intro r n name msg hmem
    rw [hev] at hmem ⊢
    simp only [List.mem_cons, List.mem_append] at hmem
    rcases hmem with h | (((h | h) | h) | h) | h
    · simp at h
    · simp [headEvents] at h
    · obtain ⟨pre, post, hpp⟩ := removeLabels_warned P context.repo pr.number _ p1 r n name msg h
      unfold removedOf
      rw [hpp]
      exact ⟨Event.call (Call.pullsGet context.repo pr.number) (Reply.pull prData) ::
        (headEvents pr prData (tierOf inp prData) ++ pre),
        post ++ ((addedOf P inp context.repo pr prData p1).events ++
          (restEvents P inp context.repo pr prData p1 ++
            catchTail (thrownOf P inp context.repo pr prData p1))), by simp⟩
    · rcases addNewLabel_phase P context.repo pr.number _ _ _ _ h with
        ⟨m, h⟩ | ⟨m, h⟩ | ⟨m, h⟩ | ⟨m, h⟩ | ⟨m, h, _⟩ <;> simp at h
    · rcases restEvents_phase P inp context.repo pr prData p1 _ h with
        ⟨m, h⟩ | ⟨m, h⟩ | ⟨m, h⟩ | ⟨m, v, h⟩ <;> simp at h
    · cases hth : thrownOf P inp context.repo pr prData p1 <;> rw [hth] at h <;>
        simp [catchTail] at h
  · intro hnot
    obtain ⟨reply, h⟩ := addLabels_issued P context.repo pr.number (existingLabels pr)
      (tierOf inp prData) (removedOf P inp context.repo pr prData p1).2 hnot
    exact ⟨reply, (mem_run_events P env context p p1 inp pr prData hin htok hpr hget _).2
      (Or.inr (Or.inr (Or.inr (Or.inl h))))⟩

/-- C8 for labels small, bug, medium with the removal of small refused: both
removals are attempted, the failure is a warning, and the output is set. -/
theorem removal_failures_isolated_witness :
    readInputs (sampleEnv "t" "50" "200" "500" "false") = Except.ok (sampleInputs false) ∧
    (run hub (sampleEnv "t" "50" "200" "500" "false") (sampleContext ["small", "bug", "medium"])
        (faultyHub 300 250 ["small", "bug", "medium"] "Bot"
          (Call.removeLabel sampleRepo 7 "small") "Forbidden")).1.filterMap removeCall =
      [Call.removeLabel sampleRepo 7 "small", Call.removeLabel sampleRepo 7 "medium"] ∧
    Event.warning "Failed to remove label small: Forbidden" ∈
      (run hub (sampleEnv "t" "50" "200" "500" "false") (sampleContext ["small", "bug", "medium"])
        (faultyHub 300 250 ["small", "bug", "medium"] "Bot"
          (Call.removeLabel sampleRepo 7 "small") "Forbidden")).1 ∧
    Event.setOutput "size-label" (OutVal.str "extra-large") ∈
      (run hub (sampleEnv "t" "50" "200" "500" "false") (sampleContext ["small", "bug", "medium"])
        (faultyHub 300 250 ["small", "bug", "medium"] "Bot"
          (Call.removeLabel sampleRepo 7 "small") "Forbidden")).1 := by
  have h := removal_failures_isolated hub (sampleEnv "t" "50" "200" "500" "false")
    (sampleContext ["small", "bug", "medium"])
    (faultyHub 300 250 ["small", "bug", "medium"] "Bot"
      (Call.removeLabel sampleRepo 7 "small") "Forbidden")
    (faultyHub 300 250 ["small", "bug", "medium"] "Bot"
      (Call.removeLabel sampleRepo 7 "small") "Forbidden")
    (sampleInputs false)
    { number := 7, labels := [{ name := "small" }, { name := "bug" }, { name := "medium" }] }
    { additions := 300, deletions := 250 } rfl (by decide) rfl rfl
  refine ⟨rfl, h.1.trans (by decide), ?_, ?_⟩
  · obtain ⟨pre, post, hpp⟩ := h.2.2.1 sampleRepo 7 "small" "Forbidden" (by decide)
    rw [hpp]
    simp
  · obtain ⟨pre, hpre⟩ := h.2.2.2.2.2 (by decide)
    rw [hpre]
    exact List.mem_append_right _ (by decide)

/-- C9 (amended): in a run that fetched the pull request and whose payload does
not list the computed label, the add-labels call is issued whatever the
get-label and create-label calls did; a get-label call that throws leads to a
create-label call; a create-label call that throws is logged as a warning with
the label name and the message; and every warning of the run comes from a
remove-label or a create-label call that threw, so a get-label failure is not
logged as a warning. -/
theorem label_definition_failures {σ : Type} (P : Platform σ) (env : Env) (context : Context)
    (p p1 : σ) (inp : Inputs) (pr : PullRequest) (prData : PrData)
    (hin : readInputs env = Except.ok inp)
    (htok : inp.token ≠ "")
    (hpr : context.payload.pull_request = some pr)
    (hget : P.pullsGet context.repo pr.number p = (Except.ok prData, p1))
    (hnot : (existingLabels pr).contains (tierOf inp prData) = false) :
    (∃ reply, Event.call (Call.addLabels context.repo pr.number [tierOf inp prData]) reply ∈
      (run P env context p).1) ∧
    (∀ r name msg, Event.call (Call.getLabel r name) (Reply.threw msg) ∈ (run P env context p).1 →
      ∃ reply, Event.call (Call.createLabel context.repo (tierOf inp prData)
        (labelColors.lookup (tierOf inp prData)) ("PR size: " ++ tierOf inp prData)) reply ∈
          (run P env context p).1) ∧
    (∀ r name color description msg,
      Event.call (Call.createLabel r name color description) (Reply.threw msg) ∈
        (run P env context p).1 →
      name = tierOf inp prData ∧
      Event.warning ("Failed to create label " ++ tierOf inp prData ++ ": " ++ msg) ∈
        (run P env context p).1) ∧
    (∀ m, Event.warning m ∈ (run P env context p).1 →
      (∃ name msg, m = "Failed to remove label " ++ name ++ ": " ++ msg ∧
        Event.call (Call.removeLabel context.repo pr.number name) (Reply.threw msg) ∈
          (run P env context p).1) ∨
      (∃ msg, m = "Failed to create label " ++ tierOf inp prData ++ ": " ++ msg ∧
        Event.call (Call.createLabel context.repo (tierOf inp prData)
          (labelColors.lookup (tierOf inp prData)) ("PR size: " ++ tierOf inp prData))
          (Reply.threw msg) ∈ (run P env context p).1)) := by
  have hmem := mem_run_events P env context p p1 inp pr prData hin htok hpr hget
  have hA := addNewLabel_cases P context.repo pr.number (existingLabels pr) (tierOf inp prData)
    (removedOf P inp context.repo pr prData p1).2
  have hE := ensureLabel_cases P context.repo (tierOf inp prData)
    (removedOf P inp context.repo pr prData p1).2
  refine ⟨?_, ?_, ?_, ?_⟩
  · obtain ⟨reply, h⟩ := addLabels_issued P context.repo pr.number (existingLabels pr)
      (tierOf inp prData) (removedOf P inp context.repo pr prData p1).2 hnot
    exact ⟨reply, (hmem _).2 (Or.inr (Or.inr (Or.inr (Or.inl h))))⟩
  · intro r name msg h
    have h := mem_added_of_mem_run P env context p p1 inp pr prData hin htok hpr hget _ _
      (Or.inl ⟨_, _, rfl⟩) h
    unfold addedOf at h
    suffices hs : ∃ reply, Event.call (Call.createLabel context.repo (tierOf inp prData)
        (labelColors.lookup (tierOf inp prData)) ("PR size: " ++ tierOf inp prData)) reply ∈
          (addedOf P inp context.repo pr prData p1).events by
      obtain ⟨reply, hs⟩ := hs
      exact ⟨reply, (hmem _).2 (Or.inr (Or.inr (Or.inr (Or.inl hs))))⟩
    unfold addedOf
    rcases hA with ⟨_, he, _⟩ | ⟨_, he, _⟩ | ⟨_, m, he, _⟩ <;> rw [he] at h ⊢
    · simp at h
    all_goals
      rcases hE with hx | ⟨m1, hx⟩ | ⟨m1, m2, hx⟩ <;> rw [hx] at h ⊢
      · simp at h
      · exact ⟨Reply.done, by simp⟩
      · exact ⟨Reply.threw m2, by simp⟩
  · intro r name color description msg h
    have h := mem_added_of_mem_run P env context p p1 inp pr prData hin htok hpr hget _ _
      (Or.inr (Or.inl ⟨_, _, _, _, rfl⟩)) h
    suffices hs : name = tierOf inp prData ∧
        Event.warning ("Failed to create label " ++ tierOf inp prData ++ ": " ++ msg) ∈
          (addedOf P inp context.repo pr prData p1).events from
      ⟨hs.1, (hmem _).2 (Or.inr (Or.inr (Or.inr (Or.inl hs.2))))⟩
    unfold addedOf at h ⊢
    rcases hA with ⟨_, he, _⟩ | ⟨_, he, _⟩ | ⟨_, m, he, _⟩ <;> rw [he] at h ⊢
    · simp at h
    all_goals
      rcases hE with hx | ⟨m1, hx⟩ | ⟨m1, m2, hx⟩ <;> rw [hx] at h ⊢
      · simp at h
      · simp at h
      · simp at h
        obtain ⟨⟨_, rfl, _, _⟩, rfl⟩ := h
        simp
  · intro m h
    rcases (hmem _).1 h with h | h | h | h | h | h
    · cases h
    · obtain ⟨m, h⟩ := mem_headEvents h; cases h
    · left
      rcases removeLabels_phase P context.repo pr.number _ p1 _ h with
        ⟨m, h⟩ | ⟨m, v, h⟩ | ⟨name, msg, h, hcall⟩
      · cases h
      · cases h
      · cases h
        exact ⟨name, msg, rfl, (hmem _).2 (Or.inr (Or.inr (Or.inl hcall)))⟩
    · right
      rcases addNewLabel_phase P context.repo pr.number _ _ _ _ h with
        ⟨m, h⟩ | ⟨m, h⟩ | ⟨m, h⟩ | ⟨m, h⟩ | ⟨msg, h, hcall⟩
      · cases h
      · cases h
      · cases h
      · cases h
      · cases h
        exact ⟨msg, rfl, (hmem _).2 (Or.inr (Or.inr (Or.inr (Or.inl hcall))))⟩
    · rcases restEvents_phase P inp context.repo pr prData p1 _ h with
        ⟨m, h⟩ | ⟨m, h⟩ | ⟨m, h⟩ | ⟨m, v, h⟩ <;> cases h
    · obtain ⟨m, h⟩ := mem_catchTail h; cases h

/-- C9 (amended) for a run whose create-label call is refused. -/
theorem label_definition_failures_witness :
    (existingLabels { number := 7, labels := [] }).contains
      (tierOf (sampleInputs false) { additions := 300, deletions := 250 }) = false ∧
    Event.call (Call.createLabel sampleRepo "extra-large" (some "ff0000")
        "PR size: extra-large") (Reply.threw "Forbidden") ∈
      (run hub (sampleEnv "t" "50" "200" "500" "false") (sampleContext [])
        (faultyHub 300 250 [] "Bot"
          (Call.createLabel sampleRepo "extra-large" (some "ff0000") "PR size: extra-large")
          "Forbidden")).1 ∧
    Event.warning "Failed to create label extra-large: Forbidden" ∈
      (run hub (sampleEnv "t" "50" "200" "500" "false") (sampleContext [])
        (faultyHub 300 250 [] "Bot"
          (Call.createLabel sampleRepo "extra-large" (some "ff0000") "PR size: extra-large")
          "Forbidden")).1 := by
  have hmem : Event.call (Call.createLabel sampleRepo "extra-large" (some "ff0000")
        "PR size: extra-large") (Reply.threw "Forbidden") ∈
      (run hub (sampleEnv "t" "50" "200" "500" "false") (sampleContext [])
        (faultyHub 300 250 [] "Bot"
          (Call.createLabel sampleRepo "extra-large" (some "ff0000") "PR size: extra-large")
          "Forbidden")).1 := by decide
  have h := label_definition_failures hub (sampleEnv "t" "50" "200" "500" "false")
    (sampleContext [])
    (faultyHub 300 250 [] "Bot"
      (Call.createLabel sampleRepo "extra-large" (some "ff0000") "PR size: extra-large")
      "Forbidden")
    (faultyHub 300 250 [] "Bot"
      (Call.createLabel sampleRepo "extra-large" (some "ff0000") "PR size: extra-large")
      "Forbidden")
    (sampleInputs false) { number := 7, labels := [] } { additions := 300, deletions := 250 }
    rfl (by decide) rfl rfl (by decide)
  exact ⟨by decide, hmem, (h.2.2.1 _ _ _ _ _ hmem).2⟩

/-- C9, counterexample: the get-label call throws, the label is created and
attached, and the run logs no warning at all. -/
theorem get_label_failure_not_warned :
    Event.call (Call.getLabel sampleRepo "extra-large") (Reply.threw "Not Found") ∈
      (run hub (sampleEnv "t" "50" "200" "500" "false") (sampleContext [])
        (sampleHub 300 250 [] "Bot")).1 ∧
    List.any (run hub (sampleEnv "t" "50" "200" "500" "false") (sampleContext [])
      (sampleHub 300 250 [] "Bot")).1 isWarning = false ∧
    Event.call (Call.addLabels sampleRepo 7 ["extra-large"]) Reply.done ∈
      (run hub (sampleEnv "t" "50" "200" "500" "false") (sampleContext [])
        (sampleHub 300 250 [] "Bot")).1 := by
  decide

/-- C10: a run that fetched non-negative `additions` and `deletions` and reports
no failure ends with the outputs: `size-label` is set to the computed label,
one of the four size labels, and `lines-changed` to `additions + deletions`,
which is non-negative; no output is set before.  The thresholds may be any
values the inputs parse to. -/
theorem outputs_of_successful_run {σ : Type} (P : Platform σ) (env : Env) (context : Context)
    (p p1 : σ) (inp : Inputs) (pr : PullRequest) (prData : PrData)
    (hin : readInputs env = Except.ok inp)
    (htok : inp.token ≠ "")
    (hpr : context.payload.pull_request = some pr)
    (hget : P.pullsGet context.repo pr.number p = (Except.ok prData, p1))
    (ha : 0 ≤ prData.additions) (hd : 0 ≤ prData.deletions)
    (hok : ∀ ev ∈ (run P env context p).1, isSetFailed ev = false) :
    (∃ pre, (run P env context p).1 =
        pre ++ finish (tierOf inp prData) (prData.additions + prData.deletions) ∧
      ∀ ev ∈ pre, isSetOutput ev = false) ∧
    Event.setOutput "size-label" (OutVal.str (tierOf inp prData)) ∈ (run P env context p).1 ∧
    Event.setOutput "lines-changed" (OutVal.num (prData.additions + prData.deletions)) ∈
      (run P env context p).1 ∧
    tierOf inp prData ∈ sizeLabels ∧
    0 ≤ prData.additions + prData.deletions := by
  have hrun := run_of_fetch P env context p p1 inp pr prData hin htok hpr hget
  have hsh := afterFetch_shape P inp context.repo pr prData p1
  rw [hrun] at hok
  cases hthrown : (afterFetch P inp context.repo pr prData p1).thrown with
  | some msg =>
    rw [hthrown] at hok
    have := hok (Event.setFailed ("Action failed: " ++ msg)) (by simp [catchTail])
    simp [isSetFailed] at this
  | none =>
    rw [hthrown] at hsh
    obtain ⟨pre, hev, hpre⟩ := hsh
    have hevs : (run P env context p).1 =
        (Event.call (Call.pullsGet context.repo pr.number) (Reply.pull prData) :: pre) ++
          finish (tierOf inp prData) (prData.additions + prData.deletions) := by
      rw [hrun, hthrown, hev]
      simp [catchTail, tierOf]
    refine ⟨⟨_, hevs, ?_⟩, ?_, ?_, sizeLabelOf_mem _ _ _ _, by omega⟩
    · intro ev hmem
      rcases List.mem_cons.1 hmem with rfl | h
      · rfl
      · exact isCalm_output (hpre ev h)
    · rw [hevs]; simp [finish]
    · rw [hevs]; simp [finish]

/-- C10 at thresholds 50, 200, 500 with 30 additions and 10 deletions: the
outputs are `small` and 40. -/
theorem outputs_of_successful_run_witness :
    readInputs (sampleEnv "t" "50" "200" "500" "false") =
      Except.ok { token := "t", smallThreshold := some 50, mediumThreshold := some 200,
                  largeThreshold := some 500, commentOnLarge := false } ∧
    Event.setOutput "size-label" (OutVal.str "small") ∈
      (run hub (sampleEnv "t" "50" "200" "500" "false") (sampleContext [])
        (sampleHub 30 10 [] "Bot")).1 ∧
    Event.setOutput "lines-changed" (OutVal.num 40) ∈
      (run hub (sampleEnv "t" "50" "200" "500" "false") (sampleContext [])
        (sampleHub 30 10 [] "Bot")).1 := by
  have hin : readInputs (sampleEnv "t" "50" "200" "500" "false") =
      Except.ok { token := "t", smallThreshold := some 50, mediumThreshold := some 200,
                  largeThreshold := some 500, commentOnLarge := false } := by
    rfl
  have h := outputs_of_successful_run hub (sampleEnv "t" "50" "200" "500" "false")
    (sampleContext []) (sampleHub 30 10 [] "Bot") (sampleHub 30 10 [] "Bot") _
    { number := 7, labels := [] } { additions := 30, deletions := 10 } hin (by decide) rfl rfl
    (by decide) (by decide) (by decide)
  exact ⟨hin, h.2.1, h.2.2.1⟩

end PRSize
